import Mathlib

/-
Verification development for the agents.toml parser/validator
(src/src/schema.ts and the parse module src/unnamed/part_002).

The TOML text layer (smol-toml) is an external collaborator: the source
consumes it as a black box that turns text into a generic tree of
tables/strings/booleans or fails with invalid_toml.  We therefore embed
the pipeline from the generic tree onward (steps 2-5 of parse):
schema validation (zod schemas of schema.ts, modelled with zod's
valid/dirty/invalid parse statuses, strict unknown-key checks, unions
preferring the first dirty option when no option is valid, refinements,
records, optionals with defaults) followed by the normalisation steps of
parse (agent filtering, dependency discrimination) and parseOrThrow.

Machine strings are Lean Strings; JavaScript regular expressions are
embedded as executable matchers over the character list (the dot of a
JS regex without flags matches any character except the four line
terminators U+000A, U+000D, U+2028, U+2029, and the dollar anchor only
matches at the very end of the input).  The JS String.prototype.trim
is embedded as jsTrim over the JS whitespace set.
-/

-- ===========================================================================
-- Generic TOML value tree (output of the external text parser)
-- ===========================================================================

inductive Toml where
  | str (s : String)
  | bool (b : Bool)
  | int (n : Int)
  | table (kvs : List (String × Toml))
  | arr (xs : List Toml)

def tomlTypeName : Toml → String
  | .str _ => "string"
  | .bool _ => "boolean"
  | .int _ => "number"
  | .table _ => "object"
  | .arr _ => "array"

/-- Field lookup in a table, first binding wins (TOML forbids duplicates). -/
def tlookup (kvs : List (String × Toml)) (k : String) : Option Toml :=
  (kvs.find? (fun kv => kv.1 == k)).map (fun kv => kv.2)

-- ===========================================================================
-- Error model (ParseError of the parse module)
-- ===========================================================================

inductive ParseErrorType where
  | invalid_toml
  | invalid_manifest
  | invalid_dependency
deriving DecidableEq, Repr

structure Issue where
  path : List String
  message : String
deriving DecidableEq, Repr

structure ParseError where
  type : ParseErrorType
  message : String
deriving DecidableEq, Repr

-- ===========================================================================
-- zod parse results: valid / dirty / invalid, carrying collected issues
-- ===========================================================================

inductive ZRes (α : Type) where
  | valid (a : α)
  | dirty (a : α) (issues : List Issue)
  | invalid (issues : List Issue)
deriving DecidableEq, Repr

def ZRes.isValid : ZRes α → Bool
  | .valid _ => true
  | _ => false

def ZRes.map (f : α → β) : ZRes α → ZRes β
  | .valid a => .valid (f a)
  | .dirty a is => .dirty (f a) is
  | .invalid is => .invalid is

/-- Combine two sub-results the way zod merges object fields: any invalid
component makes the whole invalid, any dirty component makes it dirty,
and all issues are collected in order. -/
def zseq : ZRes (α → β) → ZRes α → ZRes β
  | .valid f, .valid a => .valid (f a)
  | .valid f, .dirty a is => .dirty (f a) is
  | .valid _, .invalid is => .invalid is
  | .dirty f is, .valid a => .dirty (f a) is
  | .dirty f is, .dirty a is2 => .dirty (f a) (is ++ is2)
  | .dirty _ is, .invalid is2 => .invalid (is ++ is2)
  | .invalid is, .valid _ => .invalid is
  | .invalid is, .dirty _ is2 => .invalid (is ++ is2)
  | .invalid is, .invalid is2 => .invalid (is ++ is2)

def unrecognizedMsg (ks : List String) : String :=
  "Unrecognized key(s) in object: " ++
    String.intercalate ", " (ks.map (fun k => "\x27" ++ k ++ "\x27"))

/-- Keys of the input object that are not in the declared shape
(in input order), as computed by a zod strict object. -/
def extraKeys (kvs : List (String × Toml)) (shape : List String) : List String :=
  (kvs.map (fun kv => kv.1)).filter (fun k => !(shape.contains k))

/-- zod strict-object unknown-key check: when extra keys exist, an
unrecognized_keys issue is added and the result is marked dirty. -/
def strictFinish (path : List String) (extra : List String) (r : ZRes α) : ZRes α :=
  if extra.isEmpty then r
  else
    match r with
    | .valid a => .dirty a [⟨path, unrecognizedMsg extra⟩]
    | .dirty a is => .dirty a (is ++ [⟨path, unrecognizedMsg extra⟩])
    | .invalid is => .invalid (is ++ [⟨path, unrecognizedMsg extra⟩])

/-- zod refine: runs on valid or dirty inner results; a failing predicate
adds the custom issue and marks the result dirty. -/
def zrefine (path : List String) (p : α → Bool) (msg : String) : ZRes α → ZRes α
  | .valid a => if p a then .valid a else .dirty a [⟨path, msg⟩]
  | .dirty a is => if p a then .dirty a is else .dirty a (is ++ [⟨path, msg⟩])
  | .invalid is => .invalid is

def firstValid : List (ZRes α) → Option α
  | [] => none
  | .valid a :: _ => some a
  | _ :: rs => firstValid rs

def firstDirty : List (ZRes α) → Option (α × List Issue)
  | [] => none
  | .dirty a is :: _ => some (a, is)
  | _ :: rs => firstDirty rs

/-- zod union: the first valid option wins; otherwise the first dirty
option is returned with its issues; otherwise a single invalid_union
issue with the default message. -/
def zunion (path : List String) (rs : List (ZRes α)) : ZRes α :=
  match firstValid rs with
  | some a => .valid a
  | none =>
      match firstDirty rs with
      | some (a, is) => .dirty a is
      | none => .invalid [⟨path, "Invalid input"⟩]

-- ===========================================================================
-- Primitive schemas (schema.ts)
-- ===========================================================================

/-- The JavaScript whitespace set trimmed by String.prototype.trim:
WhiteSpace (tab, vertical tab, form feed, space, NBSP, BOM and the
Unicode Space_Separator characters) plus the four LineTerminators. -/
def isJsWhitespace (c : Char) : Bool :=
  c = '\t' || c = '\n' || c = '\x0b' || c = '\x0c' || c = '\r' || c = ' ' ||
  c = '\u00a0' || c = '\u1680' || (0x2000 ≤ c.toNat && c.toNat ≤ 0x200a) ||
  c = '\u2028' || c = '\u2029' || c = '\u202f' || c = '\u205f' || c = '\u3000' ||
  c = '\ufeff'

/-- JavaScript s.trim(): drop leading and trailing whitespace. -/
def jsTrim (s : String) : String :=
  String.mk (((s.data.dropWhile isJsWhitespace).reverse.dropWhile isJsWhitespace).reverse)

/-- NonEmptyString: z.string().transform(trim).pipe(z.string().min(1, ...)). -/
def validateNonEmptyString (path : List String) (v : Toml) : ZRes String :=
  match v with
  | .str s =>
      let t := jsTrim s
      if t.length ≥ 1 then .valid t
      else .dirty t [⟨path, "String cannot be empty"⟩]
  | v => .invalid [⟨path, "Expected string, received " ++ tomlTypeName v⟩]

/-- Alias: trim, then min(1) and four refinements; all checks run and the
failing ones each contribute an issue (dirty). -/
def validateAlias (path : List String) (s : String) : ZRes String :=
  let t := jsTrim s
  let is : List Issue :=
    (if t.length ≥ 1 then [] else [⟨path, "Alias cannot be empty"⟩]) ++
    (if t.data.contains '/' then [⟨path, "Alias cannot contain \x27/\x27"⟩] else []) ++
    (if t.data.contains '\\' then [⟨path, "Alias cannot contain \x27\\\x27"⟩] else []) ++
    (if t.data.contains '.' then [⟨path, "Alias cannot contain \x27.\x27"⟩] else []) ++
    (if t.data.contains ':' then [⟨path, "Alias cannot contain \x27:\x27"⟩] else [])
  if is.isEmpty then .valid t else .dirty t is

def ghRefChar (c : Char) : Bool :=
  c.isAlphanum || c = '_' || c = '.' || c = '-'

/-- The GithubRef regex of schema.ts:
the JS pattern caret [a-zA-Z0-9_.-]+ slash [a-zA-Z0-9_.-]+ dollar.
The class excludes the slash, so a match is exactly a nonempty class run,
one slash, and a nonempty class run reaching the end of the string. -/
def ghRefMatches (s : String) : Bool :=
  let a := s.data.takeWhile (fun c => c ≠ '/')
  match s.data.dropWhile (fun c => c ≠ '/') with
  | c :: b => c = '/' && a ≠ [] && b ≠ [] && a.all ghRefChar && b.all ghRefChar
  | [] => false

def validateGithubRef (path : List String) (v : Toml) : ZRes String :=
  match v with
  | .str s =>
      if ghRefMatches s then .valid s
      else .dirty s [⟨path, "Must be in format \x27owner/repo\x27"⟩]
  | v => .invalid [⟨path, "Expected string, received " ++ tomlTypeName v⟩]

def validateBool (path : List String) (v : Toml) : ZRes Bool :=
  match v with
  | .bool b => .valid b
  | v => .invalid [⟨path, "Expected boolean, received " ++ tomlTypeName v⟩]

-- ===========================================================================
-- The two registry regular expressions
-- ===========================================================================

def wordChar (c : Char) : Bool :=
  c.isAlphanum || c = '_' || c = '-'

/-- The four characters a JS regex dot does not match. -/
def lineTerm (c : Char) : Bool :=
  c = '\n' || c = '\r' || c = '\u2028' || c = '\u2029'

/-- Tail of both registry patterns: a nonempty word-character run
([a-zA-Z0-9_-]+), an at sign, then a nonempty dot-plus remainder.
The name class excludes the at sign, so the greedy name run necessarily
stops at the first at sign; backtracking cannot produce any other split. -/
def regTail (cs : List Char) : Option (String × String) :=
  let name := cs.takeWhile wordChar
  match cs.dropWhile wordChar with
  | c :: ver =>
      if c = '@' then
        if name ≠ [] && ver ≠ [] && ver.all (fun d => !lineTerm d) then
          some (String.mk name, String.mk ver)
        else none
      else none
  | [] => none

/-- REGISTRY_PATTERN of the parse module, with its three capture groups:
caret (?: at (word+) slash )? (word+) at (dot+) dollar.
Returns (org?, name, version) on a match.  When the input starts with an
at sign the optional org group must participate in any match (the name
class excludes the at sign), so a failed group means no match. -/
def regMatch (s : String) : Option (Option String × String × String) :=
  match s.data with
  | [] => none
  | c :: rest =>
      if c = '@' then
        let org := rest.takeWhile wordChar
        (match rest.dropWhile wordChar with
         | d :: rest3 =>
             if d = '/' then
               if org ≠ [] then
                 (regTail rest3).map (fun nv => (some (String.mk org), nv.1, nv.2))
               else none
             else none
         | [] => none)
      else (regTail (c :: rest)).map (fun nv => ((none : Option String), nv.1, nv.2))

/-- RegistryPattern of schema.ts (the same pattern, as a boolean test):
caret ( at word+ slash )? word+ at dot+ dollar. -/
def registryPatternTest (s : String) : Bool :=
  match s.data with
  | [] => false
  | c :: rest =>
      if c = '@' then
        let org := rest.takeWhile wordChar
        (match rest.dropWhile wordChar with
         | d :: rest3 => if d = '/' then org ≠ [] && (regTail rest3).isSome else false
         | [] => false)
      else (regTail (c :: rest)).isSome

def validateRegistryDependency (path : List String) (v : Toml) : ZRes String :=
  match v with
  | .str s =>
      if registryPatternTest s then .valid s
      else .dirty s [⟨path, "Must be in format \x27[@org/]name@version\x27"⟩]
  | v => .invalid [⟨path, "Expected string, received " ++ tomlTypeName v⟩]

-- ===========================================================================
-- Dependency declaration object schemas (structural layer)
-- ===========================================================================

structure GhDecl where
  branch : Option String
  gh : String
  path : Option String
  rev : Option String
  tag : Option String
deriving DecidableEq, Repr

structure GitDecl where
  branch : Option String
  git : String
  path : Option String
  rev : Option String
  tag : Option String
deriving DecidableEq, Repr

structure PluginDecl where
  marketplace : String
  plugin : String
deriving DecidableEq, Repr

/-- DependencyDeclaration: the zod union of the five variants. -/
inductive DepDecl where
  | reg (s : String)
  | gh (d : GhDecl)
  | git (d : GitDecl)
  | loc (path : String)
  | plugin (d : PluginDecl)
deriving DecidableEq, Repr

def optField (path : List String) (kvs : List (String × Toml)) (k : String)
    (vf : List String → Toml → ZRes α) : ZRes (Option α) :=
  match tlookup kvs k with
  | none => .valid none
  | some v => (vf (path ++ [k]) v).map some

def reqField (path : List String) (kvs : List (String × Toml)) (k : String)
    (vf : List String → Toml → ZRes α) : ZRes α :=
  match tlookup kvs k with
  | none => .invalid [⟨path ++ [k], "Required"⟩]
  | some v => vf (path ++ [k]) v

/-- Truthiness count of [tag, branch, rev].filter(Boolean).length after
validation (present fields are nonempty trimmed strings). -/
def truthyCount : Option String → Nat
  | some s => if s = "" then 0 else 1
  | none => 0

def refCount (t b r : Option String) : Nat :=
  truthyCount t + truthyCount b + truthyCount r

def ghShape : List String := ["branch", "gh", "path", "rev", "tag"]

def onlyOneRefMsg : String :=
  "Only one of \x27tag\x27, \x27branch\x27, or \x27rev\x27 can be specified"

def validateGithubDependency (path : List String) (v : Toml) : ZRes GhDecl :=
  match v with
  | .table kvs =>
      let base :=
        zseq (zseq (zseq (zseq (zseq (.valid GhDecl.mk)
          (optField path kvs "branch" validateNonEmptyString))
          (reqField path kvs "gh" validateGithubRef))
          (optField path kvs "path" validateNonEmptyString))
          (optField path kvs "rev" validateNonEmptyString))
          (optField path kvs "tag" validateNonEmptyString)
      zrefine path (fun d => refCount d.tag d.branch d.rev ≤ 1) onlyOneRefMsg
        (strictFinish path (extraKeys kvs ghShape) base)
  | v => .invalid [⟨path, "Expected object, received " ++ tomlTypeName v⟩]

def gitShape : List String := ["branch", "git", "path", "rev", "tag"]

def validateGitDependency (path : List String) (v : Toml) : ZRes GitDecl :=
  match v with
  | .table kvs =>
      let base :=
        zseq (zseq (zseq (zseq (zseq (.valid GitDecl.mk)
          (optField path kvs "branch" validateNonEmptyString))
          (reqField path kvs "git" validateNonEmptyString))
          (optField path kvs "path" validateNonEmptyString))
          (optField path kvs "rev" validateNonEmptyString))
          (optField path kvs "tag" validateNonEmptyString)
      zrefine path (fun d => refCount d.tag d.branch d.rev ≤ 1) onlyOneRefMsg
        (strictFinish path (extraKeys kvs gitShape) base)
  | v => .invalid [⟨path, "Expected object, received " ++ tomlTypeName v⟩]

def localShape : List String := ["path"]

def validateLocalDependency (path : List String) (v : Toml) : ZRes String :=
  match v with
  | .table kvs =>
      strictFinish path (extraKeys kvs localShape)
        (reqField path kvs "path" validateNonEmptyString)
  | v => .invalid [⟨path, "Expected object, received " ++ tomlTypeName v⟩]

def pluginShape : List String := ["marketplace", "plugin", "type"]

def validatePluginLiteral (path : List String) (v : Toml) : ZRes Unit :=
  match v with
  | .str s =>
      if s = "claude-plugin" then .valid ()
      else .invalid [⟨path, "Invalid literal value, expected \"claude-plugin\""⟩]
  | _ => .invalid [⟨path, "Invalid literal value, expected \"claude-plugin\""⟩]

def validateClaudePluginDependency (path : List String) (v : Toml) : ZRes PluginDecl :=
  match v with
  | .table kvs =>
      let base :=
        zseq (zseq (zseq (.valid (fun m p _ => PluginDecl.mk m p))
          (reqField path kvs "marketplace" validateNonEmptyString))
          (reqField path kvs "plugin" validateNonEmptyString))
          (reqField path kvs "type" validatePluginLiteral)
      strictFinish path (extraKeys kvs pluginShape) base
  | v => .invalid [⟨path, "Expected object, received " ++ tomlTypeName v⟩]

/-- The DependencyDeclaration union, options in source order. -/
def validateDepDecl (path : List String) (v : Toml) : ZRes DepDecl :=
  zunion path [
    (validateRegistryDependency path v).map DepDecl.reg,
    (validateGithubDependency path v).map DepDecl.gh,
    (validateGitDependency path v).map DepDecl.git,
    (validateLocalDependency path v).map DepDecl.loc,
    (validateClaudePluginDependency path v).map DepDecl.plugin]

-- ===========================================================================
-- Section schemas
-- ===========================================================================

/-- AgentsSchema: z.record(z.string(), z.boolean()); entries in order,
keys unconstrained, values must be booleans. -/
def validateAgentsList (path : List String) : List (String × Toml) → ZRes (List (String × Bool))
  | [] => .valid []
  | (k, v) :: rest =>
      zseq (zseq (.valid (fun b t => (k, b) :: t)) (validateBool (path ++ [k]) v))
        (validateAgentsList path rest)

def validateAgents (path : List String) (v : Toml) : ZRes (List (String × Bool)) :=
  match v with
  | .table kvs => validateAgentsList path kvs
  | v => .invalid [⟨path, "Expected object, received " ++ tomlTypeName v⟩]

/-- DependenciesSchema: z.record(Alias, DependencyDeclaration); the
resulting record is keyed by the parsed (trimmed) alias. -/
def validateDepsList (path : List String) : List (String × Toml) → ZRes (List (String × DepDecl))
  | [] => .valid []
  | (k, v) :: rest =>
      zseq (zseq (zseq (.valid (fun a d t => (a, d) :: t))
        (validateAlias (path ++ [k]) k))
        (validateDepDecl (path ++ [k]) v))
        (validateDepsList path rest)

def validateDependencies (path : List String) (v : Toml) : ZRes (List (String × DepDecl)) :=
  match v with
  | .table kvs => validateDepsList path kvs
  | v => .invalid [⟨path, "Expected object, received " ++ tomlTypeName v⟩]

structure Pkg where
  description : Option String
  license : Option String
  name : String
  org : Option String
  version : String
deriving DecidableEq, Repr

def pkgShape : List String := ["description", "license", "name", "org", "version"]

def validatePackage (path : List String) (v : Toml) : ZRes Pkg :=
  match v with
  | .table kvs =>
      let base :=
        zseq (zseq (zseq (zseq (zseq (.valid Pkg.mk)
          (optField path kvs "description" validateNonEmptyString))
          (optField path kvs "license" validateNonEmptyString))
          (reqField path kvs "name" validateNonEmptyString))
          (optField path kvs "org" validateNonEmptyString))
          (reqField path kvs "version" validateNonEmptyString)
      strictFinish path (extraKeys kvs pkgShape) base
  | v => .invalid [⟨path, "Expected object, received " ++ tomlTypeName v⟩]

inductive SkillsSetting where
  | dir (s : String)
  | disabled
deriving DecidableEq, Repr

def validateLiteralFalse (path : List String) (v : Toml) : ZRes Unit :=
  match v with
  | .bool false => .valid ()
  | _ => .invalid [⟨path, "Invalid literal value, expected false"⟩]

def validateSkills (path : List String) (v : Toml) : ZRes SkillsSetting :=
  zunion path [
    (validateNonEmptyString path v).map SkillsSetting.dir,
    (validateLiteralFalse path v).map (fun _ => SkillsSetting.disabled)]

structure AutoDiscover where
  skills : Option SkillsSetting
deriving DecidableEq, Repr

def adShape : List String := ["skills"]

def validateAutoDiscover (path : List String) (v : Toml) : ZRes AutoDiscover :=
  match v with
  | .table kvs =>
      strictFinish path (extraKeys kvs adShape)
        ((optField path kvs "skills" validateSkills).map AutoDiscover.mk)
  | v => .invalid [⟨path, "Expected object, received " ++ tomlTypeName v⟩]

structure ExportsV where
  auto_discover : Option AutoDiscover
deriving DecidableEq, Repr

def exportsShape : List String := ["auto_discover"]

def validateExports (path : List String) (v : Toml) : ZRes ExportsV :=
  match v with
  | .table kvs =>
      strictFinish path (extraKeys kvs exportsShape)
        ((optField path kvs "auto_discover" validateAutoDiscover).map ExportsV.mk)
  | v => .invalid [⟨path, "Expected object, received " ++ tomlTypeName v⟩]

-- ===========================================================================
-- Full manifest schema
-- ===========================================================================

structure ManifestV where
  agents : List (String × Bool)
  dependencies : List (String × DepDecl)
  exports : Option ExportsV
  package : Option Pkg
deriving DecidableEq, Repr

/-- A field with .optional().default(d): a missing key parses to d. -/
def defField (path : List String) (kvs : List (String × Toml)) (k : String)
    (vf : List String → Toml → ZRes α) (dflt : α) : ZRes α :=
  match tlookup kvs k with
  | none => .valid dflt
  | some v => vf (path ++ [k]) v

def manifestShape : List String := ["agents", "dependencies", "exports", "package"]

def validateManifest (v : Toml) : ZRes ManifestV :=
  match v with
  | .table kvs =>
      let base :=
        zseq (zseq (zseq (zseq (.valid ManifestV.mk)
          (defField [] kvs "agents" validateAgents []))
          (defField [] kvs "dependencies" validateDependencies []))
          (optField [] kvs "exports" validateExports))
          (optField [] kvs "package" validatePackage)
      strictFinish [] (extraKeys kvs manifestShape) base
  | v => .invalid [⟨[], "Expected object, received " ++ tomlTypeName v⟩]

-- ===========================================================================
-- Validated/processed types and the normaliser (parse module)
-- ===========================================================================

inductive RefKind where
  | tag
  | branch
  | rev
deriving DecidableEq, Repr

structure GitRef where
  kind : RefKind
  value : String
deriving DecidableEq, Repr

inductive ValidatedDependency where
  | registry (name : String) (org : Option String) (version : String)
  | github (gh : String) (ref : Option GitRef) (path : Option String)
  | git (url : String) (ref : Option GitRef) (path : Option String)
  | loc (path : String)
  | claudePlugin (plugin : String) (marketplace : String)
deriving DecidableEq, Repr

structure ValidatedManifest where
  package : Option Pkg
  agents : List (String × Bool)
  dependencies : List (String × ValidatedDependency)
  exports : Option ExportsV
deriving DecidableEq, Repr

deriving instance DecidableEq for Except

/-- parseRegistryString: match against REGISTRY_PATTERN; org spread in
only when the capture is truthy (it is nonempty whenever present). -/
def parseRegistryString (s : String) : Option ValidatedDependency :=
  (regMatch s).map (fun m => .registry m.2.1 m.1 m.2.2)

/-- One step of extractGitRef: if (dep.field) return {type, value}. -/
def orTruthy (x : Option String) (k : RefKind) (next : Option GitRef) : Option GitRef :=
  match x with
  | some s => if s = "" then next else some ⟨k, s⟩
  | none => next

/-- extractGitRef: tag, then branch, then rev; first truthy field wins. -/
def extractGitRef (tag branch rev : Option String) : Option GitRef :=
  orTruthy tag .tag (orTruthy branch .branch (orTruthy rev .rev none))

/-- The spread ...(decl.path and braces path): included only if truthy. -/
def truthyOpt : Option String → Option String
  | some s => if s = "" then none else some s
  | none => none

/-- parseDependency of the parse module.  The TS function re-discriminates
the union value by key presence (gh, git, type, path, in that order);
on the typed union these checks are mutually exclusive and exhaustive,
so they appear here as a match on the variant. -/
def parseDependency (aliasName : String) (decl : DepDecl) : Except ParseError ValidatedDependency :=
  match decl with
  | .reg s =>
      match parseRegistryString s with
      | some d => .ok d
      | none =>
          .error ⟨.invalid_dependency,
            "Invalid registry dependency format for \x27" ++ aliasName ++ "\x27: " ++ s⟩
  | .gh d => .ok (.github d.gh (extractGitRef d.tag d.branch d.rev) (truthyOpt d.path))
  | .git d => .ok (.git d.git (extractGitRef d.tag d.branch d.rev) (truthyOpt d.path))
  | .plugin d => .ok (.claudePlugin d.plugin d.marketplace)
  | .loc p => .ok (.loc p)

def knownAgents : List String := ["claude-code", "codex", "opencode"]

/-- Step 4 of parse: process dependencies in order, stopping at the first
failure. -/
def processDeps : List (String × DepDecl) → Except ParseError (List (String × ValidatedDependency))
  | [] => .ok []
  | (a, d) :: rest =>
      match parseDependency a d with
      | .error e => .error e
      | .ok v =>
          match processDeps rest with
          | .error e => .error e
          | .ok t => .ok ((a, v) :: t)

/-- ZodError message formatting in parse:
issues mapped to path-joined-with-dots colon message, joined by
semicolons, prefixed with the invalid-manifest banner. -/
def formatIssues (is : List Issue) : String :=
  "Invalid manifest: " ++
    String.intercalate "; " (is.map (fun i => String.intercalate "." i.path ++ ": " ++ i.message))

/-- Steps 2-5 of parse (step 1, the external TOML text parser, is the
black-box producing the Toml tree; its failures are invalid_toml and
never reach this function). -/
def parseFromToml (t : Toml) : Except ParseError ValidatedManifest :=
  match validateManifest t with
  | .invalid is => .error ⟨.invalid_manifest, formatIssues is⟩
  | .dirty _ is => .error ⟨.invalid_manifest, formatIssues is⟩
  | .valid m =>
      let agents := m.agents.filter (fun kv => knownAgents.contains kv.1)
      match processDeps m.dependencies with
      | .error e => .error e
      | .ok deps => .ok ⟨m.package, agents, deps, m.exports⟩

/-- parseOrThrow: thin wrapper, throws the error message on failure. -/
def parseOrThrowFromToml (t : Toml) : Except String ValidatedManifest :=
  match parseFromToml t with
  | .ok v => .ok v
  | .error e => .error e.message

-- ===========================================================================
-- Derived definitions used by the claim statements
-- ===========================================================================

/-- aliasOk: all Alias refinements hold. -/
def aliasOk (a : String) : Bool :=
  (1 ≤ (jsTrim a).length : Bool) && !((jsTrim a).data.contains '/') &&
    !((jsTrim a).data.contains '\\') && !((jsTrim a).data.contains '.') &&
    !((jsTrim a).data.contains ':')

/-- A dependency declaration object carrying a key outside the declared
field set of the variant selected by its discriminating key. -/
def depObjBad (kvs : List (String × Toml)) : Bool :=
  if (tlookup kvs "gh").isSome then !(extraKeys kvs ghShape).isEmpty
  else if (tlookup kvs "git").isSome then !(extraKeys kvs gitShape).isEmpty
  else if (tlookup kvs "type").isSome then !(extraKeys kvs pluginShape).isEmpty
  else if (tlookup kvs "path").isSome then !(extraKeys kvs localShape).isEmpty
  else false

/-- An input document containing a key outside the declared field set of
package, exports, exports.auto_discover, a dependency object variant, or
the top level, as described by claim C4. -/
def c4Bad : Toml → Bool
  | .table kvs =>
      !(extraKeys kvs manifestShape).isEmpty ||
      (match tlookup kvs "package" with
       | some (.table p) => !(extraKeys p pkgShape).isEmpty
       | _ => false) ||
      (match tlookup kvs "exports" with
       | some (.table e) =>
           !(extraKeys e exportsShape).isEmpty ||
           (match tlookup e "auto_discover" with
            | some (.table ad) => !(extraKeys ad adShape).isEmpty
            | _ => false)
       | _ => false) ||
      (match tlookup kvs "dependencies" with
       | some (.table ds) =>
           ds.any (fun kv => match kv.2 with | .table d => depObjBad d | _ => false)
       | _ => false)
  | _ => false

/-- The agents mapping claim C5 predicts: exactly the raw boolean entries
whose key is one of the fixed known identifiers, in order. -/
def agentsOfRaw (akvs : List (String × Toml)) : List (String × Bool) :=
  akvs.filterMap (fun kv =>
    match kv.2 with
    | .bool b => if knownAgents.contains kv.1 then some (kv.1, b) else none
    | _ => none)

/-- One optional TOML entry. -/
def optEntry (k : String) : Option String → List (String × Toml)
  | some s => [(k, .str s)]
  | none => []

/-- Entry list of a gh dependency declaration with optional fields. -/
def ghEntries (g : String) (t b r p : Option String) : List (String × Toml) :=
  ("gh", Toml.str g) ::
    (optEntry "tag" t ++ optEntry "branch" b ++ optEntry "rev" r ++ optEntry "path" p)

/-- A gh dependency declaration table with optional ref and path fields. -/
def ghTable (g : String) (t b r p : Option String) : Toml :=
  .table (ghEntries g t b r p)

/-- Entry list of a git dependency declaration with optional fields. -/
def gitEntries (u : String) (t b r p : Option String) : List (String × Toml) :=
  ("git", Toml.str u) ::
    (optEntry "tag" t ++ optEntry "branch" b ++ optEntry "rev" r ++ optEntry "path" p)

/-- A git dependency declaration table with optional ref and path fields. -/
def gitTable (u : String) (t b r p : Option String) : Toml :=
  .table (gitEntries u t b r p)

/-- A document with an empty agents table and one dependency entry. -/
def depDoc (a : String) (dv : Toml) : Toml :=
  .table [("agents", .table []), ("dependencies", .table [(a, dv)])]

/-- A present optional string field is nonempty after trimming. -/
def okOpt : Option String → Prop
  | some s => jsTrim s ≠ ""
  | none => True

instance : (x : Option String) → Decidable (okOpt x)
  | none => isTrue trivial
  | some s => inferInstanceAs (Decidable (jsTrim s ≠ ""))

def cntOpt : Option String → Nat
  | some _ => 1
  | none => 0

/-- How many of tag, branch, rev are present. -/
def nSome (t b r : Option String) : Nat := cntOpt t + cntOpt b + cntOpt r

/-- The ref extraction exactly as claim C8 words it: check tag, then
branch, then rev; the first present (and, post-validation, necessarily
nonempty) field gives the ref; absent when none is present. -/
def refSpecOfOptions (t b r : Option String) : Option GitRef :=
  match t with
  | some v => some ⟨.tag, v⟩
  | none =>
      match b with
      | some v => some ⟨.branch, v⟩
      | none =>
          match r with
          | some v => some ⟨.rev, v⟩
          | none => none

/-- The registry-shorthand grammar exactly as claim C3 words it (spec-side
definition, used only to refute the claim): an optional at-org-slash
prefix, a word-character name, an at sign, and a version that is ANY
non-empty remainder - with no exclusion of line-terminator characters,
which the regular expression dot of the source does not match. -/
def regTailSpec (cs : List Char) : Option (String × String) :=
  let name := cs.takeWhile wordChar
  match cs.dropWhile wordChar with
  | c :: ver =>
      if c = '@' then
        if name ≠ [] && ver ≠ [] then some (String.mk name, String.mk ver) else none
      else none
  | [] => none

/-- Claim-side registry grammar, see regTailSpec. -/
def registryGrammarSpec (s : String) : Option (Option String × String × String) :=
  match s.data with
  | [] => none
  | c :: rest =>
      if c = '@' then
        let org := rest.takeWhile wordChar
        (match rest.dropWhile wordChar with
         | d :: rest3 =>
             if d = '/' then
               if org ≠ [] then
                 (regTailSpec rest3).map (fun nv => (some (String.mk org), nv.1, nv.2))
               else none
             else none
         | [] => none)
      else (regTailSpec (c :: rest)).map (fun nv => ((none : Option String), nv.1, nv.2))

/-- The manifest value produced for the agents-omitted document used to
correct claim C7. -/
def mC7 : ValidatedManifest :=
  ⟨some ⟨none, none, "x", none, "1"⟩, [], [], none⟩

-- ===========================================================================
-- Helper lemmas about the zod combinators
-- ===========================================================================

theorem zres_map_isValid (f : α → β) (r : ZRes α) : (r.map f).isValid = r.isValid := by
  cases r <;> rfl

theorem zres_map_valid_iff (f : α → β) (r : ZRes α) (b : β) :
    r.map f = .valid b ↔ ∃ a, r = .valid a ∧ b = f a := by
  cases r <;> simp [ZRes.map, eq_comm]

theorem zseq_isValid (f : ZRes (α → β)) (x : ZRes α) :
    (zseq f x).isValid = (f.isValid && x.isValid) := by
  cases f <;> cases x <;> rfl

theorem zseq_valid_iff (f : ZRes (α → β)) (x : ZRes α) (b : β) :
    zseq f x = .valid b ↔ ∃ g a, f = .valid g ∧ x = .valid a ∧ b = g a := by
  cases f <;> cases x <;> simp [zseq, eq_comm]

theorem zseq_valid_fun (g : α → β) (x : ZRes α) : zseq (.valid g) x = x.map g := by
  cases x <;> rfl

theorem zseq_valid_arg (f : ZRes (α → β)) (a : α) :
    zseq f (.valid a) = f.map (fun g => g a) := by
  cases f <;> rfl

theorem strictFinish_isValid (path : List String) (e : List String) (r : ZRes α) :
    (strictFinish path e r).isValid = (e.isEmpty && r.isValid) := by
  unfold strictFinish
  by_cases h : e.isEmpty <;> cases r <;> simp [h, ZRes.isValid]

theorem strictFinish_valid_iff (path : List String) (e : List String) (r : ZRes α) (a : α) :
    strictFinish path e r = .valid a ↔ e.isEmpty ∧ r = .valid a := by
  unfold strictFinish
  by_cases h : e.isEmpty <;> cases r <;> simp [h]

theorem strictFinish_nil (path : List String) (r : ZRes α) :
    strictFinish path [] r = r := by
  unfold strictFinish; simp

theorem zrefine_isValid_false (path : List String) (p : α → Bool) (m : String) (r : ZRes α)
    (h : r.isValid = false) : (zrefine path p m r).isValid = false := by
  cases r with
  | valid a => simp [ZRes.isValid] at h
  | dirty a is => unfold zrefine; by_cases hp : p a <;> simp [hp, ZRes.isValid]
  | invalid is => rfl

theorem zrefine_valid_iff (path : List String) (p : α → Bool) (m : String) (r : ZRes α) (a : α) :
    zrefine path p m r = .valid a ↔ r = .valid a ∧ p a = true := by
  cases r with
  | valid b =>
      unfold zrefine
      by_cases hp : p b <;> simp [hp] <;> intro h <;> simp [h] at hp <;> simp [hp]
  | dirty b is => unfold zrefine; by_cases hp : p b <;> simp [hp]
  | invalid is => simp [zrefine]

theorem firstValid_eq_none (rs : List (ZRes α)) (h : ∀ r ∈ rs, r.isValid = false) :
    firstValid rs = none := by
  induction rs with
  | nil => rfl
  | cons r rest ih =>
      have hr := h r (by simp)
      cases r with
      | valid a => simp [ZRes.isValid] at hr
      | dirty a is => exact ih (fun x hx => h x (by simp [hx]))
      | invalid is => exact ih (fun x hx => h x (by simp [hx]))

theorem zunion_isValid_false (path : List String) (rs : List (ZRes α))
    (h : ∀ r ∈ rs, r.isValid = false) : (zunion path rs).isValid = false := by
  unfold zunion
  rw [firstValid_eq_none rs h]
  cases firstDirty rs <;> simp [ZRes.isValid]

-- ===========================================================================
-- Helper lemmas about primitive validators
-- ===========================================================================

theorem trim_length_pos (s : String) (h : jsTrim s ≠ "") : 1 ≤ (jsTrim s).length := by
  have : (jsTrim s).length ≠ 0 := by
    intro h0
    exact h (String.ext (List.length_eq_zero.mp h0))
  omega

theorem validateNonEmptyString_ok (path : List String) (s : String) (h : jsTrim s ≠ "") :
    validateNonEmptyString path (.str s) = .valid (jsTrim s) := by
  unfold validateNonEmptyString
  simp [trim_length_pos s h]

theorem validateAlias_ok (path : List String) (a : String) (h : aliasOk a = true) :
    validateAlias path a = .valid (jsTrim a) := by
  unfold aliasOk at h
  simp only [Bool.and_eq_true, Bool.not_eq_true', decide_eq_true_eq] at h
  obtain ⟨⟨⟨⟨h1, h2⟩, h3⟩, h4⟩, h5⟩ := h
  unfold validateAlias
  have hne : ∀ (l : List Char) (c : Char), l.contains c = false → c ∉ l := by
    intro l c hc hm
    rw [show l.contains c = l.elem c from rfl, List.elem_eq_mem] at hc
    simp [hm] at hc
  simp [h1, hne _ _ h2, hne _ _ h3, hne _ _ h4, hne _ _ h5]

/-- The schema-side test and the parse-side match of the two registry
patterns agree: they are the same regular expression. -/
theorem registryPatternTest_eq_isSome (s : String) :
    registryPatternTest s = (regMatch s).isSome := by
  unfold registryPatternTest regMatch
  cases hd : s.data with
  | nil => rfl
  | cons c rest =>
      by_cases hc : c = '@'
      · simp only [hc, if_pos rfl]
        cases h2 : rest.dropWhile wordChar with
        | nil => rfl
        | cons d rest3 =>
            by_cases hdl : d = '/'
            · simp only [hdl, if_pos rfl]
              by_cases ho : rest.takeWhile wordChar = []
              · simp [ho]
              · simp only [ho, ne_eq, not_false_eq_true, if_pos]
                cases regTail rest3 <;> simp
            · simp [hdl]
      · simp only [if_neg hc]
        cases regTail (c :: rest) <;> simp

-- ===========================================================================
-- Non-validity lemmas (closed-schema rejection, claim C4 machinery)
-- ===========================================================================

theorem tlookup_isSome_mem (kvs : List (String × Toml)) (k : String)
    (h : (tlookup kvs k).isSome = true) : ∃ v, (k, v) ∈ kvs := by
  unfold tlookup at h
  cases hf : kvs.find? (fun kv => kv.1 == k) with
  | none => rw [hf] at h; simp at h
  | some kv =>
      have hm := List.mem_of_find?_eq_some hf
      have hp := List.find?_some hf
      simp only [beq_iff_eq] at hp
      exact ⟨kv.2, by rwa [← hp, Prod.mk.eta]⟩

theorem extraKeys_ne_nil (kvs : List (String × Toml)) (shape : List String)
    (k : String) (v : Toml) (hmem : (k, v) ∈ kvs) (hk : shape.contains k = false) :
    extraKeys kvs shape ≠ [] := by
  have : k ∈ extraKeys kvs shape := by
    unfold extraKeys
    rw [List.mem_filter]
    exact ⟨List.mem_map_of_mem (fun kv => kv.1) hmem, by simpa using hk⟩
  exact List.ne_nil_of_mem this

theorem isEmpty_false_of_ne_nil {l : List α} (h : l ≠ []) : l.isEmpty = false := by
  cases l with
  | nil => exact absurd rfl h
  | cons a t => rfl

theorem validateRegistryDependency_table (path : List String) (kvs : List (String × Toml)) :
    (validateRegistryDependency path (.table kvs)).isValid = false := rfl

theorem validateGithubDependency_str (path : List String) (s : String) :
    (validateGithubDependency path (.str s)).isValid = false := rfl

theorem validateGitDependency_str (path : List String) (s : String) :
    (validateGitDependency path (.str s)).isValid = false := rfl

theorem validateLocalDependency_str (path : List String) (s : String) :
    (validateLocalDependency path (.str s)).isValid = false := rfl

theorem validateClaudePluginDependency_str (path : List String) (s : String) :
    (validateClaudePluginDependency path (.str s)).isValid = false := rfl

theorem validateGithubDependency_badkey (path : List String) (kvs : List (String × Toml))
    (h : extraKeys kvs ghShape ≠ []) :
    (validateGithubDependency path (.table kvs)).isValid = false := by
  simp only [validateGithubDependency]
  apply zrefine_isValid_false
  rw [strictFinish_isValid, isEmpty_false_of_ne_nil h]
  rfl

theorem validateGitDependency_badkey (path : List String) (kvs : List (String × Toml))
    (h : extraKeys kvs gitShape ≠ []) :
    (validateGitDependency path (.table kvs)).isValid = false := by
  simp only [validateGitDependency]
  apply zrefine_isValid_false
  rw [strictFinish_isValid, isEmpty_false_of_ne_nil h]
  rfl

theorem validateLocalDependency_badkey (path : List String) (kvs : List (String × Toml))
    (h : extraKeys kvs localShape ≠ []) :
    (validateLocalDependency path (.table kvs)).isValid = false := by
  simp only [validateLocalDependency]
  rw [strictFinish_isValid, isEmpty_false_of_ne_nil h]
  rfl

theorem validateClaudePluginDependency_badkey (path : List String) (kvs : List (String × Toml))
    (h : extraKeys kvs pluginShape ≠ []) :
    (validateClaudePluginDependency path (.table kvs)).isValid = false := by
  simp only [validateClaudePluginDependency]
  rw [strictFinish_isValid, isEmpty_false_of_ne_nil h]
  rfl

theorem validateGithubDependency_missing (path : List String) (kvs : List (String × Toml))
    (h : tlookup kvs "gh" = none) :
    (validateGithubDependency path (.table kvs)).isValid = false := by
  simp only [validateGithubDependency]
  apply zrefine_isValid_false
  rw [strictFinish_isValid]
  simp only [zseq_isValid, reqField]
  rw [h]
  simp [ZRes.isValid]

theorem validateGitDependency_missing (path : List String) (kvs : List (String × Toml))
    (h : tlookup kvs "git" = none) :
    (validateGitDependency path (.table kvs)).isValid = false := by
  simp only [validateGitDependency]
  apply zrefine_isValid_false
  rw [strictFinish_isValid]
  simp only [zseq_isValid, reqField]
  rw [h]
  simp [ZRes.isValid]

theorem validateClaudePluginDependency_missing (path : List String) (kvs : List (String × Toml))
    (h : tlookup kvs "type" = none) :
    (validateClaudePluginDependency path (.table kvs)).isValid = false := by
  simp only [validateClaudePluginDependency]
  rw [strictFinish_isValid]
  simp only [zseq_isValid, reqField]
  rw [h]
  simp [ZRes.isValid]

-- ===========================================================================
-- Claim C4: the unknown-key predicate and propagation to parse failure
-- ===========================================================================

theorem validateDepDecl_badObj (path : List String) (kvs : List (String × Toml))
    (h : depObjBad kvs = true) :
    (validateDepDecl path (.table kvs)).isValid = false := by
  unfold depObjBad at h
  apply zunion_isValid_false
  intro r hr
  simp only [List.mem_cons, List.not_mem_nil, or_false] at hr
  by_cases hgh : (tlookup kvs "gh").isSome
  · rw [if_pos hgh] at h
    have hex : extraKeys kvs ghShape ≠ [] := by
      intro he; rw [he] at h; simp at h
    obtain ⟨v, hv⟩ := tlookup_isSome_mem kvs "gh" hgh
    rcases hr with h1 | h2 | h3 | h4 | h5
    · rw [h1, zres_map_isValid]; exact validateRegistryDependency_table path kvs
    · rw [h2, zres_map_isValid]; exact validateGithubDependency_badkey path kvs hex
    · rw [h3, zres_map_isValid]
      exact validateGitDependency_badkey path kvs
        (extraKeys_ne_nil kvs gitShape "gh" v hv (by rfl))
    · rw [h4, zres_map_isValid]
      exact validateLocalDependency_badkey path kvs
        (extraKeys_ne_nil kvs localShape "gh" v hv (by rfl))
    · rw [h5, zres_map_isValid]
      exact validateClaudePluginDependency_badkey path kvs
        (extraKeys_ne_nil kvs pluginShape "gh" v hv (by rfl))
  · rw [if_neg hgh] at h
    have hghn : tlookup kvs "gh" = none := by
      cases hg : tlookup kvs "gh" with
      | none => rfl
      | some v => rw [hg] at hgh; simp at hgh
    by_cases hgit : (tlookup kvs "git").isSome
    · rw [if_pos hgit] at h
      have hex : extraKeys kvs gitShape ≠ [] := by
        intro he; rw [he] at h; simp at h
      obtain ⟨v, hv⟩ := tlookup_isSome_mem kvs "git" hgit
      rcases hr with h1 | h2 | h3 | h4 | h5
      · rw [h1, zres_map_isValid]; exact validateRegistryDependency_table path kvs
      · rw [h2, zres_map_isValid]
        exact validateGithubDependency_badkey path kvs
          (extraKeys_ne_nil kvs ghShape "git" v hv (by rfl))
      · rw [h3, zres_map_isValid]; exact validateGitDependency_badkey path kvs hex
      · rw [h4, zres_map_isValid]
        exact validateLocalDependency_badkey path kvs
          (extraKeys_ne_nil kvs localShape "git" v hv (by rfl))
      · rw [h5, zres_map_isValid]
        exact validateClaudePluginDependency_badkey path kvs
          (extraKeys_ne_nil kvs pluginShape "git" v hv (by rfl))
    · rw [if_neg hgit] at h
      have hgitn : tlookup kvs "git" = none := by
        cases hg : tlookup kvs "git" with
        | none => rfl
        | some v => rw [hg] at hgit; simp at hgit
      by_cases hty : (tlookup kvs "type").isSome
      · rw [if_pos hty] at h
        have hex : extraKeys kvs pluginShape ≠ [] := by
          intro he; rw [he] at h; simp at h
        obtain ⟨v, hv⟩ := tlookup_isSome_mem kvs "type" hty
        rcases hr with h1 | h2 | h3 | h4 | h5
        · rw [h1, zres_map_isValid]; exact validateRegistryDependency_table path kvs
        · rw [h2, zres_map_isValid]
          exact validateGithubDependency_badkey path kvs
            (extraKeys_ne_nil kvs ghShape "type" v hv (by rfl))
        · rw [h3, zres_map_isValid]
          exact validateGitDependency_badkey path kvs
            (extraKeys_ne_nil kvs gitShape "type" v hv (by rfl))
        · rw [h4, zres_map_isValid]
          exact validateLocalDependency_badkey path kvs
            (extraKeys_ne_nil kvs localShape "type" v hv (by rfl))
        · rw [h5, zres_map_isValid]
          exact validateClaudePluginDependency_badkey path kvs hex
      · rw [if_neg hty] at h
        have htyn : tlookup kvs "type" = none := by
          cases hg : tlookup kvs "type" with
          | none => rfl
          | some v => rw [hg] at hty; simp at hty
        by_cases hpa : (tlookup kvs "path").isSome
        · rw [if_pos hpa] at h
          have hex : extraKeys kvs localShape ≠ [] := by
            intro he; rw [he] at h; simp at h
          rcases hr with h1 | h2 | h3 | h4 | h5
          · rw [h1, zres_map_isValid]; exact validateRegistryDependency_table path kvs
          · rw [h2, zres_map_isValid]; exact validateGithubDependency_missing path kvs hghn
          · rw [h3, zres_map_isValid]; exact validateGitDependency_missing path kvs hgitn
          · rw [h4, zres_map_isValid]; exact validateLocalDependency_badkey path kvs hex
          · rw [h5, zres_map_isValid]
            exact validateClaudePluginDependency_missing path kvs htyn
        · rw [if_neg hpa] at h
          exact absurd h (by simp)

theorem validatePackage_badkey (path : List String) (kvs : List (String × Toml))
    (h : extraKeys kvs pkgShape ≠ []) :
    (validatePackage path (.table kvs)).isValid = false := by
  simp only [validatePackage]
  rw [strictFinish_isValid, isEmpty_false_of_ne_nil h]
  rfl

theorem validateExports_badkey (path : List String) (kvs : List (String × Toml))
    (h : extraKeys kvs exportsShape ≠ []) :
    (validateExports path (.table kvs)).isValid = false := by
  simp only [validateExports]
  rw [strictFinish_isValid, isEmpty_false_of_ne_nil h]
  rfl

theorem validateAutoDiscover_badkey (path : List String) (kvs : List (String × Toml))
    (h : extraKeys kvs adShape ≠ []) :
    (validateAutoDiscover path (.table kvs)).isValid = false := by
  simp only [validateAutoDiscover]
  rw [strictFinish_isValid, isEmpty_false_of_ne_nil h]
  rfl

theorem validateExports_nv_ad (path : List String) (kvs ad : List (String × Toml))
    (hl : tlookup kvs "auto_discover" = some (.table ad))
    (h : extraKeys ad adShape ≠ []) :
    (validateExports path (.table kvs)).isValid = false := by
  simp only [validateExports]
  rw [strictFinish_isValid]
  simp only [optField, hl]
  rw [zres_map_isValid, zres_map_isValid,
    validateAutoDiscover_badkey (path ++ ["auto_discover"]) ad h]
  simp

theorem validateDepsList_nv (path : List String) (kvs : List (String × Toml))
    (k : String) (v : Toml) (hmem : (k, v) ∈ kvs)
    (h : (validateDepDecl (path ++ [k]) v).isValid = false) :
    (validateDepsList path kvs).isValid = false := by
  induction kvs with
  | nil => simp at hmem
  | cons kv rest ih =>
      rcases List.mem_cons.mp hmem with heq | htail
      · subst heq
        simp only [validateDepsList]
        rw [zseq_isValid, zseq_isValid, h]
        simp
      · simp only [validateDepsList]
        rw [zseq_isValid, ih htail]
        simp

theorem validateManifest_nv_top (kvs : List (String × Toml))
    (h : extraKeys kvs manifestShape ≠ []) :
    (validateManifest (.table kvs)).isValid = false := by
  simp only [validateManifest]
  rw [strictFinish_isValid, isEmpty_false_of_ne_nil h]
  rfl

theorem validateManifest_nv_package (kvs : List (String × Toml))
    (h : (optField [] kvs "package" validatePackage).isValid = false) :
    (validateManifest (.table kvs)).isValid = false := by
  simp only [validateManifest]
  rw [strictFinish_isValid]
  simp only [zseq_isValid]
  rw [h]
  simp

theorem validateManifest_nv_exports (kvs : List (String × Toml))
    (h : (optField [] kvs "exports" validateExports).isValid = false) :
    (validateManifest (.table kvs)).isValid = false := by
  simp only [validateManifest]
  rw [strictFinish_isValid]
  simp only [zseq_isValid]
  rw [h]
  simp

theorem validateManifest_nv_deps (kvs : List (String × Toml))
    (h : (defField [] kvs "dependencies" validateDependencies []).isValid = false) :
    (validateManifest (.table kvs)).isValid = false := by
  simp only [validateManifest]
  rw [strictFinish_isValid]
  simp only [zseq_isValid]
  rw [h]
  simp

theorem parseFromToml_error_of_nv (t : Toml) (h : (validateManifest t).isValid = false) :
    ∃ msg, parseFromToml t = .error ⟨.invalid_manifest, msg⟩ := by
  unfold parseFromToml
  cases hv : validateManifest t with
  | valid m => rw [hv] at h; simp [ZRes.isValid] at h
  | dirty a is => exact ⟨formatIssues is, rfl⟩
  | invalid is => exact ⟨formatIssues is, rfl⟩

theorem ne_nil_of_isEmpty_false {l : List α} (h : l.isEmpty = false) : l ≠ [] := by
  cases l <;> simp_all

theorem ne_nil_of_bnot_isEmpty {l : List α} (h : (!l.isEmpty) = true) : l ≠ [] := by
  cases l <;> simp_all

/-- Claim C4: every object schema is closed - any input document with a
key outside the declared field set of package, exports,
exports.auto_discover, a dependency object variant, or the top level
makes parse fail with an error of kind invalid_manifest; only the
agent-identifier level admits unknown keys. -/
theorem c4_closed_schema (t : Toml) (h : c4Bad t = true) :
    ∃ e, parseFromToml t = .error e ∧ e.type = .invalid_manifest := by
  cases t with
  | str s => simp [c4Bad] at h
  | bool b => simp [c4Bad] at h
  | int n => simp [c4Bad] at h
  | arr xs => simp [c4Bad] at h
  | table kvs =>
      have main : (validateManifest (.table kvs)).isValid = false := by
        unfold c4Bad at h
        rcases Bool.or_eq_true_iff.mp h with h3 | hdeps
        · rcases Bool.or_eq_true_iff.mp h3 with h2 | hexp
          · rcases Bool.or_eq_true_iff.mp h2 with htop | hpkg
            · exact validateManifest_nv_top kvs
                (ne_nil_of_bnot_isEmpty htop)
            · cases hp : tlookup kvs "package" with
              | none => rw [hp] at hpkg; simp at hpkg
              | some v =>
                  rw [hp] at hpkg
                  cases v with
                  | table p =>
                      apply validateManifest_nv_package
                      simp only [optField, hp]
                      rw [zres_map_isValid]
                      exact validatePackage_badkey ["package"] p
                        (ne_nil_of_bnot_isEmpty hpkg)
                  | str s => simp at hpkg
                  | bool b => simp at hpkg
                  | int n => simp at hpkg
                  | arr xs => simp at hpkg
          · cases he : tlookup kvs "exports" with
            | none => rw [he] at hexp; simp at hexp
            | some v =>
                rw [he] at hexp
                cases v with
                | table e =>
                    apply validateManifest_nv_exports
                    simp only [optField, he]
                    rw [zres_map_isValid]
                    rcases Bool.or_eq_true_iff.mp hexp with hek | had
                    · exact validateExports_badkey ["exports"] e
                        (ne_nil_of_bnot_isEmpty hek)
                    · cases ha : tlookup e "auto_discover" with
                      | none => rw [ha] at had; simp at had
                      | some w =>
                          rw [ha] at had
                          cases w with
                          | table ad =>
                              exact validateExports_nv_ad ["exports"] e ad ha
                                (ne_nil_of_bnot_isEmpty had)
                          | str s => simp at had
                          | bool b => simp at had
                          | int n => simp at had
                          | arr xs => simp at had
                | str s => simp at hexp
                | bool b => simp at hexp
                | int n => simp at hexp
                | arr xs => simp at hexp
        · cases hd : tlookup kvs "dependencies" with
          | none => rw [hd] at hdeps; simp at hdeps
          | some v =>
              rw [hd] at hdeps
              cases v with
              | table ds =>
                  obtain ⟨kv, hmem, hbad⟩ := List.any_eq_true.mp hdeps
                  apply validateManifest_nv_deps
                  simp only [defField, hd]
                  cases hv2 : kv.2 with
                  | table d =>
                      rw [hv2] at hbad
                      have hnv := validateDepDecl_badObj (["dependencies"] ++ [kv.1]) d hbad
                      have : (validateDepsList ["dependencies"] ds).isValid = false := by
                        apply validateDepsList_nv ["dependencies"] ds kv.1 kv.2
                        · simpa using hmem
                        · rw [hv2]; exact hnv
                      exact this
                  | str s => rw [hv2] at hbad; simp at hbad
                  | bool b => rw [hv2] at hbad; simp at hbad
                  | int n => rw [hv2] at hbad; simp at hbad
                  | arr xs => rw [hv2] at hbad; simp at hbad
              | str s => simp at hdeps
              | bool b => simp at hdeps
              | int n => simp at hdeps
              | arr xs => simp at hdeps
      obtain ⟨msg, hmsg⟩ := parseFromToml_error_of_nv (.table kvs) main
      exact ⟨⟨.invalid_manifest, msg⟩, hmsg, rfl⟩

-- ===========================================================================
-- Valid-result inversion lemmas (claims C5, C7, C10 machinery)
-- ===========================================================================

theorem validateRegistryDependency_valid (path : List String) (v : Toml) (s : String)
    (h : validateRegistryDependency path v = .valid s) :
    registryPatternTest s = true := by
  cases v with
  | str s0 =>
      simp only [validateRegistryDependency] at h
      by_cases ht : registryPatternTest s0
      · rw [if_pos ht] at h
        injection h with h2
        rwa [← h2]
      · rw [if_neg ht] at h
        exact absurd h (by simp)
  | bool b => exact absurd h (by simp [validateRegistryDependency])
  | int n => exact absurd h (by simp [validateRegistryDependency])
  | table kvs => exact absurd h (by simp [validateRegistryDependency])
  | arr xs => exact absurd h (by simp [validateRegistryDependency])

theorem firstValid_five_reg (r1 : ZRes String) (r2 : ZRes GhDecl) (r3 : ZRes GitDecl)
    (r4 : ZRes String) (r5 : ZRes PluginDecl) (s : String)
    (h : firstValid [r1.map DepDecl.reg, r2.map DepDecl.gh, r3.map DepDecl.git,
      r4.map DepDecl.loc, r5.map DepDecl.plugin] = some (.reg s)) :
    r1 = .valid s := by
  cases r1 with
  | valid x => simp_all [ZRes.map, firstValid]
  | dirty a is =>
      simp only [ZRes.map, firstValid] at h
      cases r2 with
      | valid x => simp_all [ZRes.map, firstValid]
      | dirty b is2 =>
          simp only [ZRes.map, firstValid] at h
          cases r3 with
          | valid x => simp_all [ZRes.map, firstValid]
          | dirty c is3 =>
              simp only [ZRes.map, firstValid] at h
              cases r4 with
              | valid x => simp_all [ZRes.map, firstValid]
              | dirty d4 is4 =>
                  simp only [ZRes.map, firstValid] at h
                  cases r5 <;> simp_all [ZRes.map, firstValid]
              | invalid is4 =>
                  simp only [ZRes.map, firstValid] at h
                  cases r5 <;> simp_all [ZRes.map, firstValid]
          | invalid is3 =>
              simp only [ZRes.map, firstValid] at h
              cases r4 with
              | valid x => simp_all [ZRes.map, firstValid]
              | dirty d4 is4 =>
                  simp only [ZRes.map, firstValid] at h
                  cases r5 <;> simp_all [ZRes.map, firstValid]
              | invalid is4 =>
                  simp only [ZRes.map, firstValid] at h
                  cases r5 <;> simp_all [ZRes.map, firstValid]
      | invalid is2 =>
          simp only [ZRes.map, firstValid] at h
          cases r3 with
          | valid x => simp_all [ZRes.map, firstValid]
          | dirty c is3 =>
              simp only [ZRes.map, firstValid] at h
              cases r4 with
              | valid x => simp_all [ZRes.map, firstValid]
              | dirty d4 is4 =>
                  simp only [ZRes.map, firstValid] at h
                  cases r5 <;> simp_all [ZRes.map, firstValid]
              | invalid is4 =>
                  simp only [ZRes.map, firstValid] at h
                  cases r5 <;> simp_all [ZRes.map, firstValid]
          | invalid is3 =>
              simp only [ZRes.map, firstValid] at h
              cases r4 with
              | valid x => simp_all [ZRes.map, firstValid]
              | dirty d4 is4 =>
                  simp only [ZRes.map, firstValid] at h
                  cases r5 <;> simp_all [ZRes.map, firstValid]
              | invalid is4 =>
                  simp only [ZRes.map, firstValid] at h
                  cases r5 <;> simp_all [ZRes.map, firstValid]
  | invalid is =>
      simp only [ZRes.map, firstValid] at h
      cases r2 with
      | valid x => simp_all [ZRes.map, firstValid]
      | dirty b is2 =>
          simp only [ZRes.map, firstValid] at h
          cases r3 with
          | valid x => simp_all [ZRes.map, firstValid]
          | dirty c is3 =>
              simp only [ZRes.map, firstValid] at h
              cases r4 with
              | valid x => simp_all [ZRes.map, firstValid]
              | dirty d4 is4 =>
                  simp only [ZRes.map, firstValid] at h
                  cases r5 <;> simp_all [ZRes.map, firstValid]
              | invalid is4 =>
                  simp only [ZRes.map, firstValid] at h
                  cases r5 <;> simp_all [ZRes.map, firstValid]
          | invalid is3 =>
              simp only [ZRes.map, firstValid] at h
              cases r4 with
              | valid x => simp_all [ZRes.map, firstValid]
              | dirty d4 is4 =>
                  simp only [ZRes.map, firstValid] at h
                  cases r5 <;> simp_all [ZRes.map, firstValid]
              | invalid is4 =>
                  simp only [ZRes.map, firstValid] at h
                  cases r5 <;> simp_all [ZRes.map, firstValid]
      | invalid is2 =>
          simp only [ZRes.map, firstValid] at h
          cases r3 with
          | valid x => simp_all [ZRes.map, firstValid]
          | dirty c is3 =>
              simp only [ZRes.map, firstValid] at h
              cases r4 with
              | valid x => simp_all [ZRes.map, firstValid]
              | dirty d4 is4 =>
                  simp only [ZRes.map, firstValid] at h
                  cases r5 <;> simp_all [ZRes.map, firstValid]
              | invalid is4 =>
                  simp only [ZRes.map, firstValid] at h
                  cases r5 <;> simp_all [ZRes.map, firstValid]
          | invalid is3 =>
              simp only [ZRes.map, firstValid] at h
              cases r4 with
              | valid x => simp_all [ZRes.map, firstValid]
              | dirty d4 is4 =>
                  simp only [ZRes.map, firstValid] at h
                  cases r5 <;> simp_all [ZRes.map, firstValid]
              | invalid is4 =>
                  simp only [ZRes.map, firstValid] at h
                  cases r5 <;> simp_all [ZRes.map, firstValid]

theorem validateDepDecl_valid_reg (path : List String) (v : Toml) (s : String)
    (h : validateDepDecl path v = .valid (.reg s)) :
    validateRegistryDependency path v = .valid s := by
  unfold validateDepDecl zunion at h
  cases hf : firstValid [(validateRegistryDependency path v).map DepDecl.reg,
      (validateGithubDependency path v).map DepDecl.gh,
      (validateGitDependency path v).map DepDecl.git,
      (validateLocalDependency path v).map DepDecl.loc,
      (validateClaudePluginDependency path v).map DepDecl.plugin] with
  | some a =>
      rw [hf] at h
      injection h with h2
      subst h2
      exact firstValid_five_reg _ _ _ _ _ s hf
  | none =>
      rw [hf] at h
      cases hd : firstDirty [(validateRegistryDependency path v).map DepDecl.reg,
          (validateGithubDependency path v).map DepDecl.gh,
          (validateGitDependency path v).map DepDecl.git,
          (validateLocalDependency path v).map DepDecl.loc,
          (validateClaudePluginDependency path v).map DepDecl.plugin] with
      | some p => rw [hd] at h; exact absurd h (by simp)
      | none => rw [hd] at h; exact absurd h (by simp)

theorem validateManifest_valid_inv (kvs : List (String × Toml)) (m : ManifestV)
    (h : validateManifest (.table kvs) = .valid m) :
    (extraKeys kvs manifestShape).isEmpty = true ∧
    defField [] kvs "agents" validateAgents [] = .valid m.agents ∧
    defField [] kvs "dependencies" validateDependencies [] = .valid m.dependencies ∧
    optField [] kvs "exports" validateExports = .valid m.exports ∧
    optField [] kvs "package" validatePackage = .valid m.package := by
  simp only [validateManifest] at h
  rw [strictFinish_valid_iff] at h
  obtain ⟨he, hb⟩ := h
  rw [zseq_valid_iff] at hb
  obtain ⟨g1, p, hg1, hp, hm1⟩ := hb
  rw [zseq_valid_iff] at hg1
  obtain ⟨g2, e, hg2, he2, hm2⟩ := hg1
  rw [zseq_valid_iff] at hg2
  obtain ⟨g3, d, hg3, hd, hm3⟩ := hg2
  rw [zseq_valid_iff] at hg3
  obtain ⟨g4, a, hg4, ha, hm4⟩ := hg3
  injection hg4 with hg4e
  subst hg4e hm4 hm3 hm2 hm1
  exact ⟨he, ha, hd, he2, hp⟩

theorem validateDependencies_valid (path : List String) (v : Toml)
    (l : List (String × DepDecl)) (h : validateDependencies path v = .valid l) :
    ∃ kvs, v = .table kvs ∧ validateDepsList path kvs = .valid l := by
  cases v with
  | table kvs => exact ⟨kvs, rfl, h⟩
  | str s => exact absurd h (by simp [validateDependencies])
  | bool b => exact absurd h (by simp [validateDependencies])
  | int n => exact absurd h (by simp [validateDependencies])
  | arr xs => exact absurd h (by simp [validateDependencies])

theorem validateDepsList_valid_each (path : List String) (kvs : List (String × Toml))
    (l : List (String × DepDecl)) (h : validateDepsList path kvs = .valid l) :
    ∀ p ∈ l, ∃ k v, validateDepDecl (path ++ [k]) v = .valid p.2 := by
  induction kvs generalizing l with
  | nil =>
      simp only [validateDepsList] at h
      injection h with h2
      subst h2
      intro p hp
      simp at hp
  | cons kv rest ih =>
      simp only [validateDepsList] at h
      rw [zseq_valid_iff] at h
      obtain ⟨g1, t, hg1, ht, hl⟩ := h
      rw [zseq_valid_iff] at hg1
      obtain ⟨g2, dd, hg2, hdd, hg1e⟩ := hg1
      rw [zseq_valid_iff] at hg2
      obtain ⟨g3, aa, hg3, haa, hg2e⟩ := hg2
      injection hg3 with hg3e
      subst hg3e hg2e hg1e hl
      intro p hp
      rcases List.mem_cons.mp hp with heq | htail
      · subst heq
        exact ⟨kv.1, kv.2, hdd⟩
      · exact ih t ht p htail

theorem parseDependency_ok_of_valid (path : List String) (v : Toml) (a : String) (d : DepDecl)
    (h : validateDepDecl path v = .valid d) :
    ∃ x, parseDependency a d = .ok x := by
  cases d with
  | reg s =>
      have h1 := validateDepDecl_valid_reg path v s h
      have h2 := validateRegistryDependency_valid path v s h1
      rw [registryPatternTest_eq_isSome] at h2
      simp only [parseDependency, parseRegistryString]
      cases hm : regMatch s with
      | none => rw [hm] at h2; simp at h2
      | some mm => exact ⟨_, rfl⟩
  | gh dd => exact ⟨_, rfl⟩
  | git dd => exact ⟨_, rfl⟩
  | loc p => exact ⟨_, rfl⟩
  | plugin dd => exact ⟨_, rfl⟩

theorem processDeps_ok (path : List String) (l : List (String × DepDecl))
    (h : ∀ p ∈ l, ∃ k v, validateDepDecl (path ++ [k]) v = .valid p.2) :
    ∃ ds, processDeps l = .ok ds := by
  induction l with
  | nil => exact ⟨[], rfl⟩
  | cons p rest ih =>
      obtain ⟨k, v, hv⟩ := h p (by simp)
      obtain ⟨x, hx⟩ := parseDependency_ok_of_valid (path ++ [k]) v p.1 p.2 hv
      obtain ⟨ds, hds⟩ := ih (fun q hq => h q (by simp [hq]))
      refine ⟨(p.1, x) :: ds, ?_⟩
      unfold processDeps
      rw [hx, hds]

/-- Every error produced by the post-TOML pipeline is an invalid_manifest
error: the schema union already enforces what parseDependency re-checks. -/
theorem parseFromToml_error_type (t : Toml) (e : ParseError)
    (h : parseFromToml t = .error e) : e.type = .invalid_manifest := by
  unfold parseFromToml at h
  cases hv : validateManifest t with
  | dirty a is => rw [hv] at h; injection h with h2; rw [← h2]
  | invalid is => rw [hv] at h; injection h with h2; rw [← h2]
  | valid m =>
      rw [hv] at h
      simp only at h
      cases t with
      | table kvs =>
          obtain ⟨_, _, hdeps, _, _⟩ := validateManifest_valid_inv kvs m hv
          have hok : ∃ ds, processDeps m.dependencies = .ok ds := by
            unfold defField at hdeps
            cases hl : tlookup kvs "dependencies" with
            | none =>
                rw [hl] at hdeps
                injection hdeps with h3
                rw [← h3]
                exact ⟨[], rfl⟩
            | some dv =>
                rw [hl] at hdeps
                obtain ⟨ds2, _, hlist⟩ := validateDependencies_valid _ dv _ hdeps
                exact processDeps_ok ["dependencies"] m.dependencies
                  (validateDepsList_valid_each _ ds2 _ hlist)
          obtain ⟨ds, hds⟩ := hok
          rw [hds] at h
          exact absurd h (by simp)
      | str s => exact absurd hv (by simp [validateManifest])
      | bool b => exact absurd hv (by simp [validateManifest])
      | int n => exact absurd hv (by simp [validateManifest])
      | arr xs => exact absurd hv (by simp [validateManifest])

-- ===========================================================================
-- Agents filtering (claim C5 machinery)
-- ===========================================================================

theorem validateBool_valid (path : List String) (v : Toml) (b : Bool)
    (h : validateBool path v = .valid b) : v = .bool b := by
  cases v with
  | bool b2 =>
      simp only [validateBool] at h
      injection h with h2
      rw [h2]
  | str s => exact absurd h (by simp [validateBool])
  | int n => exact absurd h (by simp [validateBool])
  | table kvs => exact absurd h (by simp [validateBool])
  | arr xs => exact absurd h (by simp [validateBool])

theorem contains_eq_decide_mem (l : List String) (a : String) :
    l.contains a = decide (a ∈ l) := by
  simp [List.contains, List.elem_eq_mem]

theorem validateAgentsList_valid_eq (path : List String) (akvs : List (String × Toml))
    (l : List (String × Bool)) (h : validateAgentsList path akvs = .valid l) :
    l = akvs.filterMap (fun kv =>
      match kv.2 with
      | .bool b => some (kv.1, b)
      | _ => none) := by
  induction akvs generalizing l with
  | nil =>
      simp only [validateAgentsList] at h
      injection h with h2
      simp [← h2]
  | cons kv rest ih =>
      simp only [validateAgentsList] at h
      rw [zseq_valid_iff] at h
      obtain ⟨g1, t, hg1, ht, hl⟩ := h
      rw [zseq_valid_iff] at hg1
      obtain ⟨g2, b, hg2, hb, hg1e⟩ := hg1
      injection hg2 with hg2e
      subst hg2e hg1e hl
      have hkv := validateBool_valid _ _ _ hb
      rw [ih t ht]
      simp [List.filterMap_cons, hkv]

theorem agents_filter_fuse (akvs : List (String × Toml)) :
    (akvs.filterMap (fun kv =>
      match kv.2 with
      | .bool b => some (kv.1, b)
      | _ => none)).filter (fun kv => knownAgents.contains kv.1) = agentsOfRaw akvs := by
  induction akvs with
  | nil => rfl
  | cons kv rest ih =>
      unfold agentsOfRaw at ih ⊢
      simp only [contains_eq_decide_mem, decide_eq_true_eq] at ih
      cases hv : kv.2 with
      | bool b =>
          by_cases hk : kv.1 ∈ knownAgents
          · simp [List.filterMap_cons, hv, List.filter_cons, contains_eq_decide_mem, hk, ih]
          · simp [List.filterMap_cons, hv, List.filter_cons, contains_eq_decide_mem, hk, ih]
      | str sv => simp [List.filterMap_cons, hv, contains_eq_decide_mem, ih]
      | int n => simp [List.filterMap_cons, hv, contains_eq_decide_mem, ih]
      | table kvs2 => simp [List.filterMap_cons, hv, contains_eq_decide_mem, ih]
      | arr xs => simp [List.filterMap_cons, hv, contains_eq_decide_mem, ih]

theorem parseFromToml_ok_inv (t : Toml) (m : ValidatedManifest)
    (h : parseFromToml t = .ok m) :
    ∃ M, validateManifest t = .valid M ∧
      m.agents = M.agents.filter (fun kv => knownAgents.contains kv.1) := by
  unfold parseFromToml at h
  cases hv : validateManifest t with
  | dirty a is => rw [hv] at h; exact absurd h (by simp)
  | invalid is => rw [hv] at h; exact absurd h (by simp)
  | valid M =>
      rw [hv] at h
      simp only at h
      cases hp : processDeps M.dependencies with
      | error e => rw [hp] at h; exact absurd h (by simp)
      | ok ds =>
          rw [hp] at h
          injection h with h2
          exact ⟨M, rfl, by rw [← h2]⟩

-- ===========================================================================
-- Document families for the dependency-object claims (C1, C2, C3, C6, C8)
-- ===========================================================================

theorem validateGithubRef_ok (path : List String) (g : String) (hg : ghRefMatches g = true) :
    validateGithubRef path (.str g) = .valid g := by
  simp [validateGithubRef, hg]

theorem validateGithubDependency_ghTable (path : List String) (g : String)
    (t b r p : Option String) (hg : ghRefMatches g = true)
    (ht : okOpt t) (hb : okOpt b) (hr : okOpt r) (hp : okOpt p) :
    validateGithubDependency path (ghTable g t b r p) =
      zrefine path (fun d => refCount d.tag d.branch d.rev ≤ 1) onlyOneRefMsg
        (.valid ⟨b.map jsTrim, g, p.map jsTrim, r.map jsTrim,
          t.map jsTrim⟩) := by
  rcases t with _ | tv <;> rcases b with _ | bv <;> rcases r with _ | rv <;> rcases p with _ | pv <;>
    simp_all [ghTable, ghEntries, optEntry, validateGithubDependency, optField, reqField, tlookup, extraKeys,
      ghShape, okOpt, validateGithubRef_ok, hg, validateNonEmptyString_ok, zseq, ZRes.map,
      Option.map, strictFinish_nil]

theorem validateGitDependency_gitTable (path : List String) (u : String)
    (t b r p : Option String) (hu : jsTrim u ≠ "")
    (ht : okOpt t) (hb : okOpt b) (hr : okOpt r) (hp : okOpt p) :
    validateGitDependency path (gitTable u t b r p) =
      zrefine path (fun d => refCount d.tag d.branch d.rev ≤ 1) onlyOneRefMsg
        (.valid ⟨b.map jsTrim, jsTrim u, p.map jsTrim, r.map jsTrim,
          t.map jsTrim⟩) := by
  rcases t with _ | tv <;> rcases b with _ | bv <;> rcases r with _ | rv <;> rcases p with _ | pv <;>
    simp_all [gitTable, gitEntries, optEntry, validateGitDependency, optField, reqField, tlookup,
      extraKeys, gitShape, okOpt, hu, validateNonEmptyString_ok, zseq, ZRes.map,
      Option.map, strictFinish_nil]

-- invalid-constructor propagation

theorem zseq_invalid_arg (f : ZRes (α → β)) (is : List Issue) :
    ∃ is2, zseq f (.invalid is) = .invalid is2 := by
  cases f <;> exact ⟨_, rfl⟩

theorem zseq_invalid_fun (is : List Issue) (x : ZRes α) :
    ∃ is2, zseq (α := α) (β := β) (.invalid is) x = .invalid is2 := by
  cases x <;> exact ⟨_, rfl⟩

theorem strictFinish_invalid (path : List String) (e : List String) (is : List Issue) :
    ∃ is2, strictFinish (α := α) path e (.invalid is) = .invalid is2 := by
  unfold strictFinish
  by_cases h : e.isEmpty <;> simp [h]

theorem validateGithubDependency_invalid_of_missing (path : List String)
    (kvs : List (String × Toml)) (h : tlookup kvs "gh" = none) :
    ∃ is, validateGithubDependency path (.table kvs) = .invalid is := by
  simp only [validateGithubDependency]
  have hreq : reqField path kvs "gh" validateGithubRef =
      .invalid [⟨path ++ ["gh"], "Required"⟩] := by
    simp [reqField, h]
  rw [hreq]
  obtain ⟨is1, e1⟩ := zseq_invalid_arg
    (zseq (ZRes.valid GhDecl.mk) (optField path kvs "branch" validateNonEmptyString))
    [⟨path ++ ["gh"], "Required"⟩]
  rw [e1]
  obtain ⟨is2, e2⟩ := zseq_invalid_fun is1 (optField path kvs "path" validateNonEmptyString)
  rw [e2]
  obtain ⟨is3, e3⟩ := zseq_invalid_fun is2 (optField path kvs "rev" validateNonEmptyString)
  rw [e3]
  obtain ⟨is4, e4⟩ := zseq_invalid_fun is3 (optField path kvs "tag" validateNonEmptyString)
  rw [e4]
  obtain ⟨is5, e5⟩ := strictFinish_invalid path (extraKeys kvs ghShape) is4
  rw [e5]
  exact ⟨is5, rfl⟩

-- union assembly

theorem zunion_first_valid (path : List String) (r1 r2 r3 r4 r5 : ZRes α) (a : α)
    (h1 : r1 = .valid a) : zunion path [r1, r2, r3, r4, r5] = .valid a := by
  subst h1; rfl

theorem zunion_inv_valid (path : List String) (r1 r2 r3 r4 r5 : ZRes α)
    (i1 : List Issue) (a : α) (h1 : r1 = .invalid i1) (h2 : r2 = .valid a) :
    zunion path [r1, r2, r3, r4, r5] = .valid a := by
  subst h1; subst h2; rfl

theorem zunion_inv_inv_valid (path : List String) (r1 r2 r3 r4 r5 : ZRes α)
    (i1 i2 : List Issue) (a : α) (h1 : r1 = .invalid i1) (h2 : r2 = .invalid i2)
    (h3 : r3 = .valid a) : zunion path [r1, r2, r3, r4, r5] = .valid a := by
  subst h1; subst h2; subst h3; rfl

theorem zunion_first_dirty (path : List String) (r1 r2 r3 r4 r5 : ZRes α)
    (a : α) (is : List Issue) (h1 : r1 = .dirty a is)
    (h2 : r2.isValid = false) (h3 : r3.isValid = false) (h4 : r4.isValid = false)
    (h5 : r5.isValid = false) : zunion path [r1, r2, r3, r4, r5] = .dirty a is := by
  subst h1
  unfold zunion
  rw [firstValid_eq_none]
  · rfl
  · intro r hr
    simp only [List.mem_cons, List.not_mem_nil, or_false] at hr
    rcases hr with e | e | e | e | e <;> subst e <;> first | rfl | assumption

theorem zunion_inv_dirty (path : List String) (r1 r2 r3 r4 r5 : ZRes α)
    (i1 : List Issue) (a : α) (is : List Issue) (h1 : r1 = .invalid i1)
    (h2 : r2 = .dirty a is) (h3 : r3.isValid = false) (h4 : r4.isValid = false)
    (h5 : r5.isValid = false) : zunion path [r1, r2, r3, r4, r5] = .dirty a is := by
  subst h1; subst h2
  unfold zunion
  rw [firstValid_eq_none]
  · rfl
  · intro r hr
    simp only [List.mem_cons, List.not_mem_nil, or_false] at hr
    rcases hr with e | e | e | e | e <;> subst e <;> first | rfl | assumption

theorem zunion_inv_inv_dirty (path : List String) (r1 r2 r3 r4 r5 : ZRes α)
    (i1 i2 : List Issue) (a : α) (is : List Issue) (h1 : r1 = .invalid i1)
    (h2 : r2 = .invalid i2) (h3 : r3 = .dirty a is) (h4 : r4.isValid = false)
    (h5 : r5.isValid = false) : zunion path [r1, r2, r3, r4, r5] = .dirty a is := by
  subst h1; subst h2; subst h3
  unfold zunion
  rw [firstValid_eq_none]
  · rfl
  · intro r hr
    simp only [List.mem_cons, List.not_mem_nil, or_false] at hr
    rcases hr with e | e | e | e | e <;> subst e <;> first | rfl | assumption

theorem tlookup_gitEntries_gh (u : String) (t b r p : Option String) :
    tlookup (gitEntries u t b r p) "gh" = none := by
  rcases t with _ | tv <;> rcases b with _ | bv <;> rcases r with _ | rv <;>
    rcases p with _ | pv <;> rfl

theorem refCount_maps (t b r : Option String) (ht : okOpt t) (hb : okOpt b) (hr : okOpt r) :
    refCount (t.map jsTrim) (b.map jsTrim) (r.map jsTrim) = nSome t b r := by
  rcases t with _ | tv <;> rcases b with _ | bv <;> rcases r with _ | rv <;>
    simp_all [okOpt, refCount, truthyCount, nSome, cntOpt]

theorem ghEntries_mem_gh (g : String) (t b r p : Option String) :
    ("gh", Toml.str g) ∈ ghEntries g t b r p := by
  simp [ghEntries]

theorem gitEntries_mem_git (u : String) (t b r p : Option String) :
    ("git", Toml.str u) ∈ gitEntries u t b r p := by
  simp [gitEntries]

theorem zrefine_valid_eval (path : List String) (p : α → Bool) (m : String) (a : α) :
    zrefine path p m (.valid a) = if p a then .valid a else .dirty a [⟨path, m⟩] := rfl

/-- The union on a well-formed gh table with at most one ref present. -/
theorem validateDepDecl_ghTable_le1 (path : List String) (g : String)
    (t b r p : Option String) (hg : ghRefMatches g = true)
    (ht : okOpt t) (hb : okOpt b) (hr : okOpt r) (hp : okOpt p)
    (hc : nSome t b r ≤ 1) :
    validateDepDecl path (ghTable g t b r p) =
      .valid (.gh ⟨b.map jsTrim, g, p.map jsTrim, r.map jsTrim,
        t.map jsTrim⟩) := by
  unfold validateDepDecl
  apply zunion_inv_valid _ _ _ _ _ _
    [⟨path, "Expected string, received object"⟩]
  · rfl
  · rw [validateGithubDependency_ghTable path g t b r p hg ht hb hr hp, zrefine_valid_eval]
    rw [if_pos]
    · rfl
    · show decide (refCount (t.map jsTrim) (b.map jsTrim) (r.map jsTrim) ≤ 1) = true
      rw [refCount_maps t b r ht hb hr]
      exact decide_eq_true hc

/-- The union on a well-formed gh table with two or more refs present. -/
theorem validateDepDecl_ghTable_ge2 (path : List String) (g : String)
    (t b r p : Option String) (hg : ghRefMatches g = true)
    (ht : okOpt t) (hb : okOpt b) (hr : okOpt r) (hp : okOpt p)
    (hc : 2 ≤ nSome t b r) :
    validateDepDecl path (ghTable g t b r p) =
      .dirty (.gh ⟨b.map jsTrim, g, p.map jsTrim, r.map jsTrim,
        t.map jsTrim⟩) [⟨path, onlyOneRefMsg⟩] := by
  unfold validateDepDecl
  apply zunion_inv_dirty _ _ _ _ _ _
    [⟨path, "Expected string, received object"⟩]
  · rfl
  · rw [validateGithubDependency_ghTable path g t b r p hg ht hb hr hp, zrefine_valid_eval]
    rw [if_neg]
    · rfl
    · show ¬(decide (refCount (t.map jsTrim) (b.map jsTrim) (r.map jsTrim) ≤ 1) = true)
      rw [refCount_maps t b r ht hb hr]
      simp
      omega
  · rw [zres_map_isValid]
    exact validateGitDependency_badkey path (ghEntries g t b r p)
      (extraKeys_ne_nil _ gitShape "gh" (Toml.str g) (ghEntries_mem_gh g t b r p) (by rfl))
  · rw [zres_map_isValid]
    exact validateLocalDependency_badkey path (ghEntries g t b r p)
      (extraKeys_ne_nil _ localShape "gh" (Toml.str g) (ghEntries_mem_gh g t b r p) (by rfl))
  · rw [zres_map_isValid]
    exact validateClaudePluginDependency_badkey path (ghEntries g t b r p)
      (extraKeys_ne_nil _ pluginShape "gh" (Toml.str g) (ghEntries_mem_gh g t b r p) (by rfl))

/-- The union on a well-formed git table with at most one ref present. -/
theorem validateDepDecl_gitTable_le1 (path : List String) (u : String)
    (t b r p : Option String) (hu : jsTrim u ≠ "")
    (ht : okOpt t) (hb : okOpt b) (hr : okOpt r) (hp : okOpt p)
    (hc : nSome t b r ≤ 1) :
    validateDepDecl path (gitTable u t b r p) =
      .valid (.git ⟨b.map jsTrim, jsTrim u, p.map jsTrim, r.map jsTrim,
        t.map jsTrim⟩) := by
  unfold validateDepDecl
  obtain ⟨isg, hisg⟩ := validateGithubDependency_invalid_of_missing path
    (gitEntries u t b r p) (tlookup_gitEntries_gh u t b r p)
  apply zunion_inv_inv_valid _ _ _ _ _ _
    [⟨path, "Expected string, received object"⟩] isg
  · rfl
  · rw [show (gitTable u t b r p) = Toml.table (gitEntries u t b r p) from rfl, hisg]; rfl
  · rw [validateGitDependency_gitTable path u t b r p hu ht hb hr hp, zrefine_valid_eval]
    rw [if_pos]
    · rfl
    · show decide (refCount (t.map jsTrim) (b.map jsTrim) (r.map jsTrim) ≤ 1) = true
      rw [refCount_maps t b r ht hb hr]
      exact decide_eq_true hc

/-- The union on a well-formed git table with two or more refs present. -/
theorem validateDepDecl_gitTable_ge2 (path : List String) (u : String)
    (t b r p : Option String) (hu : jsTrim u ≠ "")
    (ht : okOpt t) (hb : okOpt b) (hr : okOpt r) (hp : okOpt p)
    (hc : 2 ≤ nSome t b r) :
    validateDepDecl path (gitTable u t b r p) =
      .dirty (.git ⟨b.map jsTrim, jsTrim u, p.map jsTrim, r.map jsTrim,
        t.map jsTrim⟩) [⟨path, onlyOneRefMsg⟩] := by
  unfold validateDepDecl
  obtain ⟨isg, hisg⟩ := validateGithubDependency_invalid_of_missing path
    (gitEntries u t b r p) (tlookup_gitEntries_gh u t b r p)
  apply zunion_inv_inv_dirty _ _ _ _ _ _
    [⟨path, "Expected string, received object"⟩] isg
  · rfl
  · rw [show (gitTable u t b r p) = Toml.table (gitEntries u t b r p) from rfl, hisg]; rfl
  · rw [validateGitDependency_gitTable path u t b r p hu ht hb hr hp, zrefine_valid_eval]
    rw [if_neg]
    · rfl
    · show ¬(decide (refCount (t.map jsTrim) (b.map jsTrim) (r.map jsTrim) ≤ 1) = true)
      rw [refCount_maps t b r ht hb hr]
      simp
      omega
  · rw [zres_map_isValid]
    exact validateLocalDependency_badkey path (gitEntries u t b r p)
      (extraKeys_ne_nil _ localShape "git" (Toml.str u) (gitEntries_mem_git u t b r p) (by rfl))
  · rw [zres_map_isValid]
    exact validateClaudePluginDependency_badkey path (gitEntries u t b r p)
      (extraKeys_ne_nil _ pluginShape "git" (Toml.str u) (gitEntries_mem_git u t b r p) (by rfl))

-- string dependency entries at the union level

theorem validateDepDecl_str_ok (path : List String) (s : String)
    (h : registryPatternTest s = true) :
    validateDepDecl path (.str s) = .valid (.reg s) := by
  unfold validateDepDecl
  apply zunion_first_valid
  simp [validateRegistryDependency, h, ZRes.map]

theorem validateDepDecl_str_bad (path : List String) (s : String)
    (h : registryPatternTest s = false) :
    validateDepDecl path (.str s) =
      .dirty (.reg s) [⟨path, "Must be in format \x27[@org/]name@version\x27"⟩] := by
  unfold validateDepDecl
  apply zunion_first_dirty
  · simp [validateRegistryDependency, h, ZRes.map]
  · rw [zres_map_isValid]; exact validateGithubDependency_str path s
  · rw [zres_map_isValid]; exact validateGitDependency_str path s
  · rw [zres_map_isValid]; exact validateLocalDependency_str path s
  · rw [zres_map_isValid]; exact validateClaudePluginDependency_str path s

-- the one-dependency document at the manifest and parse levels

theorem validateManifest_depDoc (a : String) (dv : Toml) (ha : aliasOk a = true) :
    validateManifest (depDoc a dv) =
      (validateDepDecl ["dependencies", a] dv).map
        (fun d => ManifestV.mk [] [(jsTrim a, d)] none none) := by
  show validateManifest (depDoc a dv) =
    (validateDepDecl (["dependencies"] ++ [a]) dv).map
      (fun d => ManifestV.mk [] [(jsTrim a, d)] none none)
  have h1 : validateDepsList ["dependencies"] [(a, dv)] =
      (validateDepDecl (["dependencies"] ++ [a]) dv).map (fun d => [(jsTrim a, d)]) := by
    simp only [validateDepsList]
    rw [validateAlias_ok _ a ha]
    cases validateDepDecl (["dependencies"] ++ [a]) dv <;> rfl
  have h2 : validateManifest (depDoc a dv) = strictFinish [] []
      (zseq (zseq (zseq (zseq (.valid ManifestV.mk) (.valid ([] : List (String × Bool))))
        (validateDepsList ["dependencies"] [(a, dv)]))
        (.valid (none : Option ExportsV))) (.valid (none : Option Pkg))) := rfl
  rw [h2, strictFinish_nil, h1]
  cases validateDepDecl (["dependencies"] ++ [a]) dv <;> rfl

theorem parseFromToml_depDoc_ok (a : String) (dv : Toml) (ha : aliasOk a = true)
    (d : DepDecl) (v : ValidatedDependency)
    (h : validateDepDecl ["dependencies", a] dv = .valid d)
    (hd : parseDependency (jsTrim a) d = .ok v) :
    parseFromToml (depDoc a dv) = .ok ⟨none, [], [(jsTrim a, v)], none⟩ := by
  unfold parseFromToml
  rw [validateManifest_depDoc a dv ha, h]
  simp only [ZRes.map]
  simp only [processDeps]
  rw [hd]
  rfl

theorem parseFromToml_depDoc_dirty (a : String) (dv : Toml) (ha : aliasOk a = true)
    (d : DepDecl) (is : List Issue)
    (h : validateDepDecl ["dependencies", a] dv = .dirty d is) :
    parseFromToml (depDoc a dv) = .error ⟨.invalid_manifest, formatIssues is⟩ := by
  unfold parseFromToml
  rw [validateManifest_depDoc a dv ha, h]
  rfl

-- message shape helpers

theorem str_append_assoc (x y z : String) : x ++ (y ++ z) = (x ++ y) ++ z := by
  apply String.ext
  simp [String.data_append]

theorem formatIssues_single (ph a m : String) :
    formatIssues [⟨[ph, a], m⟩] =
      "Invalid manifest: " ++ (ph ++ "." ++ a ++ ": " ++ m) := rfl

theorem str_infix_concat (pre mid post : String) :
    mid.data <:+: (pre ++ mid ++ post).data :=
  ⟨pre.data, post.data, by simp [String.data_append]⟩

theorem infix_concat_left (sub y x : String) (h : sub.data <:+: y.data) :
    sub.data <:+: (x ++ y).data := by
  obtain ⟨s, t, hst⟩ := h
  exact ⟨x.data ++ s, t, by rw [String.data_append, ← hst]; simp [List.append_assoc]⟩

-- ===========================================================================
-- Remaining helpers for the claim theorems
-- ===========================================================================

theorem extractGitRef_eq_spec (t b r : Option String)
    (ht : okOpt t) (hb : okOpt b) (hr : okOpt r) :
    extractGitRef (t.map jsTrim) (b.map jsTrim) (r.map jsTrim) =
      refSpecOfOptions (t.map jsTrim) (b.map jsTrim) (r.map jsTrim) := by
  rcases t with _ | tv <;> rcases b with _ | bv <;> rcases r with _ | rv <;>
    simp_all [okOpt, extractGitRef, orTruthy, refSpecOfOptions]

theorem truthyOpt_eq (p : Option String) (hp : okOpt p) :
    truthyOpt (p.map jsTrim) = p.map jsTrim := by
  rcases p with _ | pv <;> simp_all [okOpt, truthyOpt]

theorem validateAgentsList_all_bool (path : List String) (akvs : List (String × Toml))
    (h : ∀ kv ∈ akvs, ∃ bb, kv.2 = Toml.bool bb) :
    ∃ l, validateAgentsList path akvs = .valid l := by
  induction akvs with
  | nil => exact ⟨[], rfl⟩
  | cons kv rest ih =>
      obtain ⟨bb, hbb⟩ := h kv (by simp)
      obtain ⟨l, hl⟩ := ih (fun q hq => h q (by simp [hq]))
      refine ⟨(kv.1, bb) :: l, ?_⟩
      simp only [validateAgentsList]
      rw [hbb, hl]
      rfl


-- ===========================================================================
-- Claim theorems
-- ===========================================================================

/-- Claim C1 (code bug witness): on the declared SSH-shorthand input
git = git-at-github.com:org/repo.git with tag v1, parse succeeds but the
resulting Git variant url is the raw declared string, NOT the normalized
https URL that the claim (with the repository SPEC.md and its test
suite) requires: parseDependency passes decl.git through unchanged. -/
theorem c1_git_url_not_normalized :
    parseFromToml
        (depDoc "d" (gitTable "git@github.com:org/repo.git" (some "v1") none none none)) =
      .ok ⟨none, [],
        [("d", .git "git@github.com:org/repo.git" (some ⟨.tag, "v1"⟩) none)], none⟩ ∧
    "git@github.com:org/repo.git" ≠ "https://github.com/org/repo" := by
  exact ⟨by decide, by decide⟩

/-- Claim C3, counterexample: the string x-at-1-newline-2 matches the
registry-shorthand grammar exactly as the claim words it (version = any
non-empty remainder after the first at sign following the name), yet
parse rejects the document: the regular expression dot does not match a
newline. -/
theorem c3_counterexample :
    registryGrammarSpec "x@1\n2" = some (none, "x", "1\n2") ∧
    parseFromToml (depDoc "a" (.str "x@1\n2")) =
      .error ⟨.invalid_manifest,
        "Invalid manifest: dependencies.a: Must be in format \x27[@org/]name@version\x27"⟩ := by
  exact ⟨by decide, by decide⟩

/-- Claim C3, amended: for every dependency entry whose string value
matches the registry-shorthand pattern - optional at-org-slash prefix,
word-character name, at sign, then a non-empty version free of the four
line-terminator characters (which the pattern dot excludes) - parse
succeeds and produces a Registry dependency with exactly the matched
org, name and version components. -/
theorem c3_registry_shorthand (s : String) (o : Option String) (n v : String)
    (h : regMatch s = some (o, n, v)) :
    parseFromToml (depDoc "a" (.str s)) =
      .ok ⟨none, [], [("a", .registry n o v)], none⟩ := by
  have htest : registryPatternTest s = true := by
    rw [registryPatternTest_eq_isSome, h]
    rfl
  have hd := validateDepDecl_str_ok ["dependencies", "a"] s htest
  have hok : parseDependency (jsTrim "a") (.reg s) = .ok (.registry n o v) := by
    simp [parseDependency, parseRegistryString, h]
  have hres := parseFromToml_depDoc_ok "a" (.str s) (by decide) (.reg s)
    (.registry n o v) hd hok
  have e : jsTrim "a" = "a" := by decide
  rw [e] at hres
  exact hres

/-- Witness for the amended claim C3 at the spec scenario input. -/
theorem c3_registry_shorthand_witness :
    regMatch "superpowers@1.0.0" = some (none, "superpowers", "1.0.0") ∧
    parseFromToml (depDoc "a" (.str "superpowers@1.0.0")) =
      .ok ⟨none, [], [("a", .registry "superpowers" none "1.0.0")], none⟩ :=
  ⟨by decide, c3_registry_shorthand _ none "superpowers" "1.0.0" (by decide)⟩

/-- Claim C6, counterexample: a string dependency entry failing the
registry-shorthand grammar makes parse fail with kind invalid_manifest
(the structural union rejects it), not invalid_dependency as claimed. -/
theorem c6_counterexample :
    parseFromToml (depDoc "bad" (.str "notvalid")) =
      .error ⟨.invalid_manifest,
        "Invalid manifest: dependencies.bad: Must be in format \x27[@org/]name@version\x27"⟩ ∧
    ParseErrorType.invalid_manifest ≠ ParseErrorType.invalid_dependency := by
  exact ⟨by decide, by decide⟩

/-- Claim C6, amended: for every document whose dependencies mapping
contains a string entry that does not match the registry-shorthand
pattern, parse fails with an error of kind invalid_manifest whose
message names the offending alias. -/
theorem c6_bad_registry_string (a s : String) (ha : aliasOk a = true)
    (h : registryPatternTest s = false) :
    ∃ e, parseFromToml (depDoc a (.str s)) = .error e ∧
      e.type = .invalid_manifest ∧ a.data <:+: e.message.data := by
  have hd := validateDepDecl_str_bad ["dependencies", a] s h
  have hres := parseFromToml_depDoc_dirty a (.str s) ha _ _ hd
  refine ⟨_, hres, rfl, ?_⟩
  rw [formatIssues_single]
  apply infix_concat_left
  exact ⟨("dependencies" ++ ".").data,
    (": " ++ "Must be in format \x27[@org/]name@version\x27").data,
    by simp [String.data_append]⟩

/-- Witness for the amended claim C6. -/
theorem c6_bad_registry_string_witness :
    aliasOk "bad" = true ∧ registryPatternTest "notvalid" = false ∧
    (∃ e, parseFromToml (depDoc "bad" (.str "notvalid")) = .error e ∧
      e.type = .invalid_manifest ∧ ("bad" : String).data <:+: e.message.data) :=
  ⟨by decide, by decide, c6_bad_registry_string "bad" "notvalid" (by decide) (by decide)⟩

/-- Claim C7, counterexample: an otherwise-valid document entirely
omitting the agents section parses successfully (the schema declares
agents as optional with an empty default), where the claim requires an
invalid_manifest failure. -/
theorem c7_counterexample :
    parseFromToml
        (Toml.table [("package", .table [("name", Toml.str "x"), ("version", Toml.str "1")])]) =
      .ok mC7 := by
  decide

/-- Claim C7, amended: the agents section is optional; a document
omitting it parses (when otherwise valid) with the empty agents mapping,
and an empty agents mapping is likewise accepted. -/
theorem c7_agents_optional :
    (∀ (kvs : List (String × Toml)) (m : ValidatedManifest),
      tlookup kvs "agents" = none → parseFromToml (.table kvs) = .ok m → m.agents = []) ∧
    (∃ m, parseFromToml (Toml.table [("agents", Toml.table [])]) = .ok m) := by
  constructor
  · intro kvs m hl hok
    obtain ⟨M, hM, hag⟩ := parseFromToml_ok_inv _ m hok
    obtain ⟨_, hA, _, _, _⟩ := validateManifest_valid_inv kvs M hM
    unfold defField at hA
    rw [hl] at hA
    injection hA with h2
    rw [hag, ← h2]
    rfl
  · exact ⟨⟨none, [], [], none⟩, by decide⟩

/-- Witness for the amended claim C7. -/
theorem c7_agents_optional_witness : mC7.agents = [] :=
  c7_agents_optional.1
    [("package", .table [("name", Toml.str "x"), ("version", Toml.str "1")])]
    mC7 rfl (by decide)

/-- Claim C9: parseOrThrow is a thin wrapper around parse - it returns
exactly the value parse returns on success, and on failure signals
exactly the message field of the error descriptor parse produced,
performing no validation of its own. -/
theorem c9_parse_or_throw (t : Toml) :
    (∀ m, parseFromToml t = .ok m ↔ parseOrThrowFromToml t = .ok m) ∧
    (∀ e, parseFromToml t = .error e → parseOrThrowFromToml t = .error e.message) := by
  constructor
  · intro m
    unfold parseOrThrowFromToml
    cases h : parseFromToml t <;> simp
  · intro e h
    unfold parseOrThrowFromToml
    rw [h]

/-- Witness for claim C9. -/
theorem c9_parse_or_throw_witness :
    parseOrThrowFromToml (Toml.table [("bogus", Toml.bool true)]) =
      .error "Invalid manifest: : Unrecognized key(s) in object: \x27bogus\x27" :=
  (c9_parse_or_throw _).2
    ⟨.invalid_manifest, "Invalid manifest: : Unrecognized key(s) in object: \x27bogus\x27"⟩
    (by decide)

/-- Claim C10: parse never returns an error of kind invalid_dependency:
every string that passes the schema registry pattern also matches the
parse-side pattern, and every object passing the union takes a success
branch of parseDependency, so both invalid_dependency branches are
unreachable from the parse boundary. -/
theorem c10_no_invalid_dependency (t : Toml) (e : ParseError)
    (h : parseFromToml t = .error e) : e.type ≠ ParseErrorType.invalid_dependency := by
  rw [parseFromToml_error_type t e h]
  simp

/-- Witness for claim C10. -/
theorem c10_no_invalid_dependency_witness :
    (⟨.invalid_manifest,
      "Invalid manifest: : Unrecognized key(s) in object: \x27extra\x27"⟩ : ParseError).type ≠
      ParseErrorType.invalid_dependency :=
  c10_no_invalid_dependency (Toml.table [("extra", Toml.bool true)]) _ (by decide)

/-- Witness for claim C4 at a document with an unknown top-level key. -/
theorem c4_closed_schema_witness :
    c4Bad (Toml.table [("agents", Toml.table []), ("bogus", Toml.bool true)]) = true ∧
    ∃ e, parseFromToml (Toml.table [("agents", Toml.table []), ("bogus", Toml.bool true)]) =
        .error e ∧ e.type = .invalid_manifest :=
  ⟨by decide, c4_closed_schema _ (by decide)⟩

/-- Claim C2: for a gh or git dependency declaration object with valid
fields, parse fails with an invalid_manifest error whose message
mentions the field names tag, branch and rev whenever two or more of
those fields are present, and succeeds when zero or one is present. -/
theorem c2_ref_exclusivity (a g u : String) (t b r p : Option String)
    (ha : aliasOk a = true) (hg : ghRefMatches g = true) (hu : jsTrim u ≠ "")
    (ht : okOpt t) (hb : okOpt b) (hr : okOpt r) (hp : okOpt p) :
    (2 ≤ nSome t b r →
      (∃ e, parseFromToml (depDoc a (ghTable g t b r p)) = .error e ∧
        e.type = .invalid_manifest ∧ "tag".data <:+: e.message.data ∧
        "branch".data <:+: e.message.data ∧ "rev".data <:+: e.message.data) ∧
      (∃ e, parseFromToml (depDoc a (gitTable u t b r p)) = .error e ∧
        e.type = .invalid_manifest ∧ "tag".data <:+: e.message.data ∧
        "branch".data <:+: e.message.data ∧ "rev".data <:+: e.message.data)) ∧
    (nSome t b r ≤ 1 →
      (∃ m, parseFromToml (depDoc a (ghTable g t b r p)) = .ok m) ∧
      (∃ m, parseFromToml (depDoc a (gitTable u t b r p)) = .ok m)) := by
  have hmsg : ∀ w : String, w.data <:+: onlyOneRefMsg.data →
      w.data <:+: (formatIssues [⟨["dependencies", a], onlyOneRefMsg⟩]).data := by
    intro w hw
    rw [formatIssues_single]
    apply infix_concat_left
    apply infix_concat_left
    exact hw
  constructor
  · intro hc
    constructor
    · refine ⟨_, parseFromToml_depDoc_dirty a _ ha _ _
        (validateDepDecl_ghTable_ge2 _ g t b r p hg ht hb hr hp hc), rfl,
        hmsg "tag" (by decide), hmsg "branch" (by decide), hmsg "rev" (by decide)⟩
    · refine ⟨_, parseFromToml_depDoc_dirty a _ ha _ _
        (validateDepDecl_gitTable_ge2 _ u t b r p hu ht hb hr hp hc), rfl,
        hmsg "tag" (by decide), hmsg "branch" (by decide), hmsg "rev" (by decide)⟩
  · intro hc
    constructor
    · exact ⟨_, parseFromToml_depDoc_ok a _ ha _ _
        (validateDepDecl_ghTable_le1 _ g t b r p hg ht hb hr hp hc) rfl⟩
    · exact ⟨_, parseFromToml_depDoc_ok a _ ha _ _
        (validateDepDecl_gitTable_le1 _ u t b r p hu ht hb hr hp hc) rfl⟩

/-- Witness for claim C2: tag plus branch on a gh object is rejected, a
single rev on a git object is accepted. -/
theorem c2_ref_exclusivity_witness :
    (∃ e, parseFromToml
        (depDoc "bad" (ghTable "org/repo" (some "v1") (some "main") none none)) = .error e ∧
      e.type = .invalid_manifest ∧ "tag".data <:+: e.message.data ∧
      "branch".data <:+: e.message.data ∧ "rev".data <:+: e.message.data) ∧
    (∃ m, parseFromToml
        (depDoc "ok" (gitTable "https://gitlab.com/o/r" none none (some "abc") none)) = .ok m) := by
  constructor
  · exact ((c2_ref_exclusivity "bad" "org/repo" "u" (some "v1") (some "main") none none
      (by decide) (by decide) (by decide) (by decide) (by decide) trivial trivial).1
      (by decide)).1
  · exact ((c2_ref_exclusivity "ok" "o/r" "https://gitlab.com/o/r" none none (some "abc") none
      (by decide) (by decide) (by decide) trivial trivial (by decide) trivial).2
      (by decide)).2

/-- Claim C5: a successfully parsed document keeps exactly the raw
agents entries whose key is one of claude-code, codex, opencode, paired
with their original booleans; all other keys are dropped silently and a
boolean-valued agents table never makes validation fail. -/
theorem c5_agent_filtering :
    (∀ (kvs akvs : List (String × Toml)) (m : ValidatedManifest),
      tlookup kvs "agents" = some (.table akvs) →
      parseFromToml (.table kvs) = .ok m →
      m.agents = agentsOfRaw akvs) ∧
    (∀ (path : List String) (akvs : List (String × Toml)),
      (∀ kv ∈ akvs, ∃ bb, kv.2 = Toml.bool bb) →
      ∃ l, validateAgents path (.table akvs) = .valid l) := by
  constructor
  · intro kvs akvs m hl hok
    obtain ⟨M, hM, hag⟩ := parseFromToml_ok_inv _ m hok
    obtain ⟨_, hA, _, _, _⟩ := validateManifest_valid_inv kvs M hM
    unfold defField at hA
    rw [hl] at hA
    have hlist : validateAgentsList ([] ++ ["agents"]) akvs = .valid M.agents := hA
    have heq := validateAgentsList_valid_eq _ akvs M.agents hlist
    rw [hag, heq, agents_filter_fuse]
  · intro path akvs hall
    exact validateAgentsList_all_bool path akvs hall

/-- Witness for claim C5: an unknown agent key is dropped silently. -/
theorem c5_agent_filtering_witness :
    (∀ m, parseFromToml (Toml.table [("agents",
        Toml.table [("claude-code", Toml.bool true), ("future-agent", Toml.bool true)])]) =
        .ok m →
      m.agents = agentsOfRaw [("claude-code", Toml.bool true), ("future-agent", Toml.bool true)]) ∧
    parseFromToml (Toml.table [("agents",
        Toml.table [("claude-code", Toml.bool true), ("future-agent", Toml.bool true)])]) =
      .ok ⟨none, [("claude-code", true)], [], none⟩ :=
  ⟨fun m hm => c5_agent_filtering.1
      [("agents", Toml.table [("claude-code", Toml.bool true), ("future-agent", Toml.bool true)])]
      [("claude-code", Toml.bool true), ("future-agent", Toml.bool true)] m rfl hm,
    by decide⟩

/-- Claim C8: for a successfully parsed gh or git dependency object the
ref is the first present (and necessarily nonempty) field among tag,
branch, rev in that priority order, absent when none is present, and a
declared path is carried through (trimmed, like every string field). -/
theorem c8_ref_priority (a g u : String) (t b r p : Option String)
    (ha : aliasOk a = true) (hg : ghRefMatches g = true) (hu : jsTrim u ≠ "")
    (ht : okOpt t) (hb : okOpt b) (hr : okOpt r) (hp : okOpt p)
    (hc : nSome t b r ≤ 1) :
    parseFromToml (depDoc a (ghTable g t b r p)) =
      .ok ⟨none, [], [(jsTrim a, .github g
        (refSpecOfOptions (t.map jsTrim) (b.map jsTrim) (r.map jsTrim))
        (p.map jsTrim))], none⟩ ∧
    parseFromToml (depDoc a (gitTable u t b r p)) =
      .ok ⟨none, [], [(jsTrim a, .git (jsTrim u)
        (refSpecOfOptions (t.map jsTrim) (b.map jsTrim) (r.map jsTrim))
        (p.map jsTrim))], none⟩ := by
  constructor
  · apply parseFromToml_depDoc_ok a _ ha _ _
      (validateDepDecl_ghTable_le1 _ g t b r p hg ht hb hr hp hc)
    simp only [parseDependency]
    rw [extractGitRef_eq_spec t b r ht hb hr, truthyOpt_eq p hp]
  · apply parseFromToml_depDoc_ok a _ ha _ _
      (validateDepDecl_gitTable_le1 _ u t b r p hu ht hb hr hp hc)
    simp only [parseDependency]
    rw [extractGitRef_eq_spec t b r ht hb hr, truthyOpt_eq p hp]

/-- Witness for claim C8 at the spec scenario input: gh with tag v2.0.0
yields a GitHub variant with a tag ref. -/
theorem c8_ref_priority_witness :
    parseFromToml
        (depDoc "sensei" (ghTable "sensei-marketplace/sensei" (some "v2.0.0") none none none)) =
      .ok ⟨none, [], [("sensei",
        .github "sensei-marketplace/sensei" (some ⟨.tag, "v2.0.0"⟩) none)], none⟩ := by
  rw [(c8_ref_priority "sensei" "sensei-marketplace/sensei" "u" (some "v2.0.0") none none none
    (by decide) (by decide) (by decide) (by decide) trivial trivial trivial (by decide)).1]
  decide
